import Mathlib

/-!
# Verification of the rlox compiler/VM core

Shallow embedding of the rlox repository (a single-pass compiler and bytecode
VM for a small expression language) and proofs about it.

Modelling conventions, used throughout:

* Rust `Vec<u8>` buffers and Rust `String`s are modelled as `List Nat`
  (byte values).  Rust `String` is a UTF-8 byte buffer, so byte lists are the
  exact representation; lexicographic `String` comparison in Rust is byte
  order, which is list order here.
* A Rust panic (slice out of bounds, `unwrap` on `None`, `unreachable!`,
  integer underflow on `usize` subtraction used for indexing) is modelled as
  an explicit `crashed` outcome.
* Loops are modelled with an explicit fuel parameter; running out of fuel is
  the distinct outcome `fuelOut`.  The one genuinely non-terminating loop in
  the source (the line-comment loop in `Scanner::skip_whitespace`, which spins
  forever once it peeks a newline) is mapped directly to `none`
  (= `fuelOut` at the top level), with a comment at the definition.
* `f32` is modelled by `ℚ`: every numeric literal exercised by a theorem in
  this file is a small integer, exactly representable in `f32`, and no theorem
  here depends on rounding, NaN or infinity behaviour.
-/

set_option autoImplicit false

namespace RLox

/-- Bytes of an ASCII/UTF-8 string literal, the `Vec<u8>`/`String` contents. -/
def bytesOf (s : String) : List Nat := s.data.map Char.toNat

/-- `source[i]` as an optional read; the Rust code indexes and panics instead
where noted at each use site. -/
def byteAt (src : List Nat) (i : Nat) : Option Nat := src.get? i

/-- Rust slice `source[a..b]` contents (bounds are checked at each use site,
since the Rust slice panics when they fail). -/
def sliceBytes (src : List Nat) (a b : Nat) : List Nat := (src.drop a).take (b - a)

/-- `char::is_ascii_digit` on a byte. -/
def isDigitByte (b : Nat) : Bool := 48 ≤ b && b ≤ 57

/-- `char::is_alphabetic` on `byte as char` (i.e. on the byte's Latin-1
interpretation): ASCII letters plus U+00AA, U+00B5, U+00BA and the letters in
U+00C0..U+00FF (all of that range except × U+00D7 and ÷ U+00F7). -/
def isAlphaByte (b : Nat) : Bool :=
  (65 ≤ b && b ≤ 90) || (97 ≤ b && b ≤ 122) ||
  b = 170 || b = 181 || b = 186 ||
  (192 ≤ b && b ≤ 255 && b ≠ 215 && b ≠ 247)

/-- Is `b` a UTF-8 continuation byte. -/
def utf8Cont (b : Nat) : Bool := 128 ≤ b && b ≤ 191

/-- Validity check of `String::from_utf8` (standard UTF-8 well-formedness);
`Scanner::make_token` and `Scanner::check_keyword` call `.unwrap()` on it,
panicking on invalid input. -/
def utf8Valid : List Nat → Bool
  | [] => true
  | b :: r =>
    if b ≤ 127 then utf8Valid r
    else if 194 ≤ b && b ≤ 223 then
      match r with
      | c1 :: r2 => utf8Cont c1 && utf8Valid r2
      | [] => false
    else if b = 224 then
      match r with
      | c1 :: c2 :: r2 => (160 ≤ c1 && c1 ≤ 191) && utf8Cont c2 && utf8Valid r2
      | _ => false
    else if 225 ≤ b && b ≤ 236 then
      match r with
      | c1 :: c2 :: r2 => utf8Cont c1 && utf8Cont c2 && utf8Valid r2
      | _ => false
    else if b = 237 then
      match r with
      | c1 :: c2 :: r2 => (128 ≤ c1 && c1 ≤ 159) && utf8Cont c2 && utf8Valid r2
      | _ => false
    else if 238 ≤ b && b ≤ 239 then
      match r with
      | c1 :: c2 :: r2 => utf8Cont c1 && utf8Cont c2 && utf8Valid r2
      | _ => false
    else if b = 240 then
      match r with
      | c1 :: c2 :: c3 :: r2 => (144 ≤ c1 && c1 ≤ 191) && utf8Cont c2 && utf8Cont c3 && utf8Valid r2
      | _ => false
    else if 241 ≤ b && b ≤ 243 then
      match r with
      | c1 :: c2 :: c3 :: r2 => utf8Cont c1 && utf8Cont c2 && utf8Cont c3 && utf8Valid r2
      | _ => false
    else if b = 244 then
      match r with
      | c1 :: c2 :: c3 :: r2 => (128 ≤ c1 && c1 ≤ 143) && utf8Cont c2 && utf8Cont c3 && utf8Valid r2
      | _ => false
    else false

/-- `TokenType` from `src/token.rs`. -/
inductive TokenType where
  | TOKEN_LEFT_PAREN | TOKEN_RIGHT_PAREN | TOKEN_LEFT_BRACE | TOKEN_RIGHT_BRACE
  | TOKEN_COMMA | TOKEN_DOT | TOKEN_MINUS | TOKEN_PLUS | TOKEN_SEMICOLON
  | TOKEN_SLASH | TOKEN_STAR
  | TOKEN_BANG | TOKEN_BANG_EQUAL | TOKEN_EQUAL | TOKEN_EQUAL_EQUAL
  | TOKEN_GREATER | TOKEN_GREATER_EQUAL | TOKEN_LESS | TOKEN_LESS_EQUAL
  | TOKEN_IDENTIFIER | TOKEN_STRING | TOKEN_NUMBER
  | TOKEN_AND | TOKEN_CLASS | TOKEN_ELSE | TOKEN_FALSE | TOKEN_FOR | TOKEN_FUN
  | TOKEN_IF | TOKEN_NIL | TOKEN_OR | TOKEN_PRINT | TOKEN_RETURN | TOKEN_SUPER
  | TOKEN_THIS | TOKEN_TRUE | TOKEN_VAR | TOKEN_WHILE
  | TOKEN_ERROR | TOKEN_EOF
  deriving DecidableEq

/-- `Token` from `src/token.rs`; `message` is the `String` field as bytes. -/
structure Token where
  token_type : TokenType
  message : List Nat
  start : Nat
  line : Nat
  deriving DecidableEq

/-- `Scanner` state from `src/compiler/scanner.rs`.

The Rust `scan_token` also builds a peekable iterator over
`source.iter().skip(start)` and advances it in lockstep with `current`;
every read through that iterator observes exactly `source[current]`
(each `token.next()` that matters is paired with `self.advance()`, and the
few unpaired `token.next()` calls are final lookaheads after which the
function returns without reading the iterator again), so the embedding
tracks only the cursor. -/
structure Scanner where
  source : List Nat
  start : Nat
  current : Nat
  line : Nat
  is_finished : Bool
  deriving DecidableEq

/-- `Scanner::new`. -/
def Scanner.new (source : List Nat) : Scanner :=
  { source := source, start := 0, current := 0, line := 1, is_finished := false }

/-- Result of one `scan_token` call:
`tok` = `Some(token)` returned, `nothing` = `None` returned,
`crashed` = a Rust panic, `fuelOut` = out of fuel / the comment loop hang. -/
inductive ScanOut where
  | tok (st : Scanner) (t : Token)
  | nothing (st : Scanner)
  | crashed
  | fuelOut
  deriving DecidableEq

/-- `Scanner::make_token`: slices `source[start..current]` (panic when the
bounds fail) and decodes it with `String::from_utf8(..).unwrap()` (panic on
invalid UTF-8). -/
def Scanner.make_token (st : Scanner) (tt : TokenType) : Option Token :=
  if st.start ≤ st.current && st.current ≤ st.source.length
      && utf8Valid (sliceBytes st.source st.start st.current) then
    some ⟨tt, sliceBytes st.source st.start st.current, st.start, st.line⟩
  else
    none

/-- `Scanner::error_token`. -/
def Scanner.error_token (st : Scanner) (msg : List Nat) : Token :=
  ⟨.TOKEN_ERROR, msg, st.start, st.line⟩

/-- `Scanner::match_token`: if the byte at `current` exists and differs from
`expected`, return `false` without advancing; otherwise (equal **or absent**)
advance and return `true` — the absent case advancing past the end is the
source's behaviour. -/
def Scanner.match_token (st : Scanner) (expected : Nat) : Scanner × Bool :=
  match byteAt st.source st.current with
  | some c =>
    if c ≠ expected then (st, false)
    else ({ st with current := st.current + 1 }, true)
  | none => ({ st with current := st.current + 1 }, true)

/-- The inner line-comment loop of `Scanner::skip_whitespace`: consumes bytes
while they differ from `'\n'`.  When it peeks a `'\n'` the Rust loop body does
nothing and the condition stays true, so the program hangs: that case is
`none` here (folded into `fuelOut` by the caller). -/
def commentLoop : Nat → Scanner → Option Scanner
  | 0, _ => none
  | f + 1, st =>
    match byteAt st.source st.current with
    | none => some st
    | some c =>
      if c ≠ 10 then commentLoop f { st with current := st.current + 1 }
      else none

/-- `Scanner::skip_whitespace`.  Note the `'/'` arm: it consumes the `'/'`
and then unconditionally consumes the following byte when one exists, whether
or not it is a second `'/'`; it never resets `start`. -/
def skip_whitespace : Nat → Scanner → Option Scanner
  | 0, _ => none
  | f + 1, st =>
    match byteAt st.source st.current with
    | none => some st
    | some c =>
      if c = 32 || c = 13 || c = 9 then
        skip_whitespace f { st with current := st.current + 1, start := st.current + 1 }
      else if c = 10 then
        skip_whitespace f
          { st with current := st.current + 1, start := st.current + 1, line := st.line + 1 }
      else if c = 47 then
        let st1 : Scanner := { st with current := st.current + 1 }
        match byteAt st1.source st1.current with
        | none => some st1
        | some nxt =>
          let st2 : Scanner := { st1 with current := st1.current + 1 }
          if nxt = 47 then
            match commentLoop f st2 with
            | none => none
            | some st3 => skip_whitespace f st3
          else skip_whitespace f st2
      else some st

/-- The integer-part / fraction-part digit loop of `Scanner::number`:
consume bytes while they are ASCII digits. -/
def numDigitLoop : Nat → Scanner → Option Scanner
  | 0, _ => none
  | f + 1, st =>
    match byteAt st.source st.current with
    | some c =>
      if isDigitByte c then numDigitLoop f { st with current := st.current + 1 }
      else some st
    | none => some st

/-- `Scanner::number`: a digit run, then a fraction part only when the next
two bytes are `'.'` followed by a digit (a trailing `'.'` is not consumed). -/
def scanNumber (f : Nat) (st : Scanner) : ScanOut :=
  match numDigitLoop f st with
  | none => .fuelOut
  | some st1 =>
    let st2 : Option Scanner :=
      match byteAt st1.source st1.current, byteAt st1.source (st1.current + 1) with
      | some c, some c2 =>
        if c = 46 && isDigitByte c2 then
          numDigitLoop f { st1 with current := st1.current + 1 }
        else some st1
      | _, _ => some st1
    match st2 with
    | none => .fuelOut
    | some st3 =>
      match st3.make_token .TOKEN_NUMBER with
      | some t => .tok st3 t
      | none => .crashed

/-- `Scanner::string`: consume through the closing quote, counting newlines;
error token when input ends first.  The opening quote was already consumed by
the caller. -/
def scanStringLit : Nat → Scanner → ScanOut
  | 0, _ => .fuelOut
  | f + 1, st =>
    match byteAt st.source st.current with
    | none => .tok st (st.error_token (bytesOf "Unterminated string."))
    | some c =>
      let st1 : Scanner := { st with current := st.current + 1 }
      if c = 34 then
        match st1.make_token .TOKEN_STRING with
        | some t => .tok st1 t
        | none => .crashed
      else if c = 10 then
        scanStringLit f { st1 with line := st1.line + 1 }
      else
        scanStringLit f st1

/-- `Scanner::check_keyword`: sets `current := start + startOff + rest.length`
unconditionally and compares `source[left..right]` with `rest`
(slice + `from_utf8().unwrap()` panic when out of bounds / invalid).
It never checks where the identifier actually ends, so it recognizes a keyword
as soon as the expected bytes follow — prefix matching, not exact-length. -/
def checkKeyword (st : Scanner) (startOff : Nat) (rest : List Nat) (tt : TokenType) :
    Option (Scanner × TokenType) :=
  let left := st.start + startOff
  let right := left + rest.length
  let st1 : Scanner := { st with current := right }
  if right ≤ st.source.length && utf8Valid (sliceBytes st.source left right) then
    if sliceBytes st.source left right = rest then some (st1, tt)
    else some (st1, .TOKEN_IDENTIFIER)
  else none

/-- `Scanner::identifier_type`: dispatch on the first byte(s); the fall-through
advances `current` once and yields a (single-character) identifier. -/
def identifierType (st : Scanner) : Option (Scanner × TokenType) :=
  match byteAt st.source st.current with
  | none => some ({ st with current := st.current + 1 }, .TOKEN_IDENTIFIER)
  | some c =>
    match c with
    | 97 => checkKeyword st 1 (bytesOf "nd") .TOKEN_AND
    | 99 => checkKeyword st 1 (bytesOf "lass") .TOKEN_CLASS
    | 101 => checkKeyword st 1 (bytesOf "lse") .TOKEN_ELSE
    | 102 =>
      let st1 : Scanner := { st with current := st.current + 1 }
      (match byteAt st1.source st1.current with
       | some 97 => checkKeyword st1 2 (bytesOf "lse") .TOKEN_FALSE
       | some 111 => checkKeyword st1 2 (bytesOf "r") .TOKEN_FOR
       | some 117 => checkKeyword st1 2 (bytesOf "n") .TOKEN_FUN
       | _ => some ({ st1 with current := st1.current + 1 }, .TOKEN_IDENTIFIER))
    | 105 => checkKeyword st 1 (bytesOf "f") .TOKEN_IF
    | 110 => checkKeyword st 1 (bytesOf "il") .TOKEN_NIL
    | 111 => checkKeyword st 1 (bytesOf "r") .TOKEN_OR
    | 112 => checkKeyword st 1 (bytesOf "rint") .TOKEN_PRINT
    | 114 => checkKeyword st 1 (bytesOf "eturn") .TOKEN_RETURN
    | 115 => checkKeyword st 1 (bytesOf "uper") .TOKEN_SUPER
    | 118 => checkKeyword st 1 (bytesOf "ar") .TOKEN_VAR
    | 119 => checkKeyword st 1 (bytesOf "hile") .TOKEN_WHILE
    | 116 =>
      let st1 : Scanner := { st with current := st.current + 1 }
      (match byteAt st1.source st1.current with
       | some 104 => checkKeyword st1 2 (bytesOf "is") .TOKEN_THIS
       | some 114 => checkKeyword st1 2 (bytesOf "ue") .TOKEN_TRUE
       | _ => some ({ st1 with current := st1.current + 1 }, .TOKEN_IDENTIFIER))
    | _ => some ({ st with current := st.current + 1 }, .TOKEN_IDENTIFIER)

/-- `Scanner::identifier`. -/
def scanIdentifier (st : Scanner) : ScanOut :=
  match identifierType st with
  | none => .crashed
  | some (st1, tt) =>
    match st1.make_token tt with
    | some t => .tok st1 t
    | none => .crashed

/-- The punctuation dispatch of `Scanner::scan_token` — the arms after the
digit / alphabetic / end-of-input cases, running on the state `st3` whose
cursor has already consumed the dispatched byte `c`. -/
def scanPunct (f : Nat) (st3 : Scanner) (c : Nat) : ScanOut :=
  let mk : TokenType → Scanner → ScanOut := fun tt s =>
    match s.make_token tt with
    | some t => .tok s t
    | none => .crashed
  match c with
  | 40 => mk .TOKEN_LEFT_PAREN st3
  | 41 => mk .TOKEN_RIGHT_PAREN st3
  | 123 => mk .TOKEN_LEFT_BRACE st3
  | 125 => mk .TOKEN_RIGHT_BRACE st3
  | 59 => mk .TOKEN_SEMICOLON st3
  | 44 => mk .TOKEN_COMMA st3
  | 46 => mk .TOKEN_DOT st3
  | 45 => mk .TOKEN_MINUS st3
  | 43 => mk .TOKEN_PLUS st3
  | 47 => mk .TOKEN_SLASH st3
  | 42 => mk .TOKEN_STAR st3
  | 33 =>
    -- source bug preserved: the Rust arm asks match_token for a minus sign,
    -- byte 45, not for the equals sign.
    let p := st3.match_token 45
    mk (if p.2 then .TOKEN_BANG_EQUAL else .TOKEN_BANG) p.1
  | 61 =>
    let p := st3.match_token 61
    mk (if p.2 then .TOKEN_EQUAL_EQUAL else .TOKEN_EQUAL) p.1
  | 60 =>
    let p := st3.match_token 61
    mk (if p.2 then .TOKEN_LESS_EQUAL else .TOKEN_LESS) p.1
  | 62 =>
    let p := st3.match_token 61
    mk (if p.2 then .TOKEN_GREATER_EQUAL else .TOKEN_GREATER) p.1
  | 34 => scanStringLit f st3
  | _ => .tok st3 (st3.error_token (bytesOf "Unexpected character."))

/-- The body of `Scanner::scan_token` after `skip_whitespace` has run. -/
def scanTokenAfterWs (f : Nat) (st1 : Scanner) : ScanOut :=
  if st1.is_finished then .nothing st1
  else if st1.current = st1.source.length then
    let st2 : Scanner := { st1 with is_finished := true }
    match st2.make_token .TOKEN_EOF with
    | some t => .tok st2 t
    | none => .crashed
  else
    match byteAt st1.source st1.current with
    | none => .nothing st1
    | some c =>
      let st2 : Scanner := { st1 with start := st1.current }
      if isDigitByte c then scanNumber f st2
      else if isAlphaByte c then scanIdentifier st2
      else scanPunct f { st2 with current := st2.current + 1 } c

/-- `Scanner::scan_token`. -/
def scan_token (f : Nat) (st0 : Scanner) : ScanOut :=
  let st : Scanner := { st0 with start := st0.current }
  match skip_whitespace f st with
  | none => .fuelOut
  | some st1 => scanTokenAfterWs f st1

/-- Outcomes of `n` successive `scan_token` calls (stops after a crash or
fuel exhaustion, since the process is gone). -/
def scanCalls : Nat → Nat → Scanner → List ScanOut
  | 0, _, _ => []
  | n + 1, f, st =>
    let r := scan_token f st
    r :: (match r with
          | .tok st1 _ => scanCalls n f st1
          | .nothing st1 => scanCalls n f st1
          | _ => [])

/-- Token type of a `scan_token` result, when a token was returned. -/
def ScanOut.tokType : ScanOut → Option TokenType
  | .tok _ t => some t.token_type
  | _ => none

/-- Message bytes of a `scan_token` result, when a token was returned. -/
def ScanOut.tokMsg : ScanOut → Option (List Nat)
  | .tok _ t => some t.message
  | _ => none

/-- Did the call crash (Rust panic)? -/
def ScanOut.isCrash : ScanOut → Bool
  | .crashed => true
  | _ => false

end RLox

namespace RLox

/-! ## Value / Object model (`src/value.rs`, `src/object.rs`)

`f32` is modelled by `ℚ` (see the file header). -/

/-- `ObjectType` from `src/object.rs`; the `String` payload is its bytes. -/
inductive ObjectType where
  | OBJ_STRING (s : List Nat)
  deriving DecidableEq

/-- `Object` from `src/object.rs`. -/
structure Object where
  object_type : ObjectType
  deriving DecidableEq

/-- `Value` from `src/value.rs`. -/
inductive Value where
  | VAL_BOOL (b : Bool)
  | VAL_NIL
  | VAL_NUMBER (n : ℚ)
  | VAL_OBJECT (o : Object)
  deriving DecidableEq

/-- Discriminant order used by the derived `PartialOrd` on `Value`
(declaration order in the enum). -/
def Value.discr : Value → Nat
  | .VAL_BOOL _ => 0
  | .VAL_NIL => 1
  | .VAL_NUMBER _ => 2
  | .VAL_OBJECT _ => 3

/-- Byte-lexicographic comparison of `String`s (Rust `Ord` on `String`). -/
def bytesCmp : List Nat → List Nat → Ordering
  | [], [] => .eq
  | [], _ :: _ => .lt
  | _ :: _, [] => .gt
  | a :: as_, b :: bs =>
    if a < b then .lt else if b < a then .gt else bytesCmp as_ bs

/-- The derived `PartialOrd::partial_cmp` on `Value`: values of different
variants compare by declaration order of the variants; same-variant values
compare their payloads (`false < true` for `bool`, numeric order for the
number payload — total here since `ℚ` has no NaN, and none of the values this
file exercises is a NaN — byte order for strings). -/
def valuePartialCmp (a b : Value) : Option Ordering :=
  match a, b with
  | .VAL_BOOL x, .VAL_BOOL y =>
    some (if x = y then .eq else if x then .gt else .lt)
  | .VAL_NIL, .VAL_NIL => some .eq
  | .VAL_NUMBER x, .VAL_NUMBER y =>
    some (if x < y then .lt else if y < x then .gt else .eq)
  | .VAL_OBJECT ⟨.OBJ_STRING x⟩, .VAL_OBJECT ⟨.OBJ_STRING y⟩ =>
    some (bytesCmp x y)
  | _, _ =>
    some (if a.discr < b.discr then .lt else .gt)

/-- Rust `a > b` via the derived `PartialOrd`. -/
def valueGt (a b : Value) : Bool := valuePartialCmp a b = some .gt

/-- Rust `a < b` via the derived `PartialOrd`. -/
def valueLt (a b : Value) : Bool := valuePartialCmp a b = some .lt

/-- The `Add`/`Sub`/`Mul`/`Div` impls on `Value`: both operands must be
`VAL_NUMBER`, otherwise `Err("Value must be a number")`. -/
def valueArith (op : ℚ → ℚ → ℚ) (a b : Value) : Except (List Nat) ℚ :=
  match a, b with
  | .VAL_NUMBER x, .VAL_NUMBER y => .ok (op x y)
  | _, _ => .error (bytesOf "Value must be a number")

/-- The `Neg` impl on `Value`. -/
def valueNeg (a : Value) : Except (List Nat) Value :=
  match a with
  | .VAL_NUMBER x => .ok (.VAL_NUMBER (-x))
  | _ => .error (bytesOf "Value must be a number")

/-- `Display` for `Object`: `writeln!` appends a newline after the string. -/
def objectDisplay (o : Object) : List Nat :=
  match o.object_type with
  | .OBJ_STRING s => s ++ [10]

/-- `impl FromStr for Value` delegates to `s.parse::<f32>()`.  This embedding
gives the exact decimal value (as `ℚ`) for lexemes of the form
`digits` or `digits.digits` — the only lexemes the scanner can produce for
`TOKEN_NUMBER` (proved below for claim C10) and hence the only strings the
compiler's `number()` ever parses; all of them are accepted by `f32::from_str`.
Other strings map to `none` (the compiler treats a failed parse as a panic). -/
def digitsVal (l : List Nat) : Nat := l.foldl (fun acc d => acc * 10 + (d - 48)) 0

def fromStrQ (l : List Nat) : Option ℚ :=
  let ip := l.takeWhile isDigitByte
  let rest := l.drop ip.length
  if ip = [] then none
  else
    match rest with
    | [] => some ((digitsVal ip : ℤ) : ℚ)
    | 46 :: fp =>
      if fp ≠ [] && fp.all isDigitByte then
        some (((digitsVal ip : ℤ) : ℚ) + ((digitsVal fp : ℤ) : ℚ) / ((10 : ℚ) ^ fp.length))
      else none
    | _ => none

/-- Acceptance of `f32::from_str` (Rust std), per its documented grammar:
optional sign, then `inf`/`infinity`/`nan` (case-insensitive) or a mantissa
(`digits`, `digits.`, `digits.digits` or `.digits`) with an optional
exponent (`e`/`E`, optional sign, at least one digit). -/
def stripSign : List Nat → List Nat
  | c :: r => if c = 43 || c = 45 then r else c :: r
  | [] => []

def lowerByte (b : Nat) : Nat := if 65 ≤ b && b ≤ 90 then b + 32 else b

def isInfNan (l : List Nat) : Bool :=
  let low := l.map lowerByte
  low = bytesOf "inf" || low = bytesOf "infinity" || low = bytesOf "nan"

def expAccept (l : List Nat) : Bool :=
  match l with
  | [] => true
  | e :: r =>
    (e = 101 || e = 69) &&
      (let r1 := stripSign r
       let d := r1.takeWhile isDigitByte
       d ≠ [] && r1.drop d.length = [])

def rustF32Accept (l : List Nat) : Bool :=
  let l1 := stripSign l
  isInfNan l1 ||
    (let ip := l1.takeWhile isDigitByte
     let rest := l1.drop ip.length
     match rest with
     | [] => ip ≠ []
     | 46 :: r2 =>
       let fp := r2.takeWhile isDigitByte
       (ip ≠ [] || fp ≠ []) && expAccept (r2.drop fp.length)
     | _ => ip ≠ [] && expAccept rest)

/-! ## Chunk (`src/chunk.rs`) and constant pool (`src/value.rs`) -/

/-- `ValueArray` from `src/value.rs`. -/
structure ValueArray where
  count : Nat
  values : List Value
  deriving DecidableEq

/-- `ValueArray::default()`. -/
def ValueArray.default : ValueArray := ⟨0, []⟩

/-- `ValueArray::write`: push when the vector is not longer than `count`,
otherwise overwrite slot `count`; then increment `count`. -/
def ValueArray.write (a : ValueArray) (v : Value) : ValueArray :=
  if a.values.length < a.count + 1 then
    ⟨a.count + 1, a.values ++ [v]⟩
  else
    ⟨a.count + 1, a.values.set a.count v⟩

/-- `Chunk` from `src/chunk.rs`. -/
structure Chunk where
  code : List Nat
  count : Nat
  constants : ValueArray
  lines : List Nat
  deriving DecidableEq

/-- `Chunk::default()`. -/
def Chunk.default : Chunk := ⟨[], 0, ValueArray.default, []⟩

/-- `Chunk::write`. -/
def Chunk.write (c : Chunk) (data line : Nat) : Chunk :=
  if c.code.length < c.count + 1 then
    { c with code := c.code ++ [data], lines := c.lines ++ [line], count := c.count + 1 }
  else
    { c with code := c.code.set c.count data, lines := c.lines.set c.count line,
             count := c.count + 1 }

/-- `Chunk::add_constant`: append to the pool, return the new state and
`constants.count - 1`.  There is no capacity check. -/
def Chunk.add_constant (c : Chunk) (v : Value) : Chunk × Nat :=
  let a := c.constants.write v
  ({ c with constants := a }, a.count - 1)

end RLox

namespace RLox

/-! ## Parse rules (`src/compiler/parse_rule.rs`, `src/compiler/precedence.rs`)

The `ParseFn` enum here carries the two extra variants (`Literal`, `Str` for
`ParseFn::String`) that `compiler/mod.rs` dispatches on; the rule table in
`parse_rule.rs` never produces them. -/

inductive ParseFn where
  | Grouping | Null | Binary | Unary | Number | Literal | Str
  deriving DecidableEq

inductive Precedence where
  | PREC_NONE | PREC_ASSIGNMENT | PREC_OR | PREC_AND | PREC_EQUALITY
  | PREC_COMPARISON | PREC_TERM | PREC_FACTOR | PREC_UNARY | PREC_CALL
  | PREC_PRIMARY
  deriving DecidableEq

/-- `repr(u8)` discriminant of `Precedence` (`IntoPrimitive`). -/
def Precedence.toU8 : Precedence → Nat
  | .PREC_NONE => 0 | .PREC_ASSIGNMENT => 1 | .PREC_OR => 2 | .PREC_AND => 3
  | .PREC_EQUALITY => 4 | .PREC_COMPARISON => 5 | .PREC_TERM => 6
  | .PREC_FACTOR => 7 | .PREC_UNARY => 8 | .PREC_CALL => 9 | .PREC_PRIMARY => 10

/-- `TryFromPrimitive` for `Precedence`. -/
def Precedence.tryFrom (n : Nat) : Option Precedence :=
  if n = 0 then some .PREC_NONE else if n = 1 then some .PREC_ASSIGNMENT
  else if n = 2 then some .PREC_OR else if n = 3 then some .PREC_AND
  else if n = 4 then some .PREC_EQUALITY else if n = 5 then some .PREC_COMPARISON
  else if n = 6 then some .PREC_TERM else if n = 7 then some .PREC_FACTOR
  else if n = 8 then some .PREC_UNARY else if n = 9 then some .PREC_CALL
  else if n = 10 then some .PREC_PRIMARY else none

/-- Derived `PartialOrd` on `Precedence` (discriminant order). -/
def Precedence.gt (a b : Precedence) : Bool := b.toU8 < a.toU8

structure ParseRule where
  prefixFn : ParseFn
  infixFn : ParseFn
  precedence : Precedence
  deriving DecidableEq

/-- `ParseRule::from_token_type` exactly as written in
`src/compiler/parse_rule.rs`: only `(`, `-`, `+`, `/`, `*` and number tokens
have non-`Null` handlers; `!`, the comparison/equality tokens, string and
`true`/`false`/`nil` tokens all have `Null` rules with `PREC_NONE`. -/
def ParseRule.from_token_type : TokenType → ParseRule
  | .TOKEN_LEFT_PAREN => ⟨.Grouping, .Null, .PREC_NONE⟩
  | .TOKEN_RIGHT_PAREN => ⟨.Null, .Null, .PREC_NONE⟩
  | .TOKEN_LEFT_BRACE => ⟨.Null, .Null, .PREC_NONE⟩
  | .TOKEN_RIGHT_BRACE => ⟨.Null, .Null, .PREC_NONE⟩
  | .TOKEN_COMMA => ⟨.Null, .Null, .PREC_NONE⟩
  | .TOKEN_DOT => ⟨.Null, .Null, .PREC_NONE⟩
  | .TOKEN_MINUS => ⟨.Unary, .Binary, .PREC_TERM⟩
  | .TOKEN_PLUS => ⟨.Null, .Binary, .PREC_TERM⟩
  | .TOKEN_SEMICOLON => ⟨.Null, .Null, .PREC_NONE⟩
  | .TOKEN_SLASH => ⟨.Null, .Binary, .PREC_FACTOR⟩
  | .TOKEN_STAR => ⟨.Null, .Binary, .PREC_FACTOR⟩
  | .TOKEN_BANG => ⟨.Null, .Null, .PREC_NONE⟩
  | .TOKEN_BANG_EQUAL => ⟨.Null, .Null, .PREC_NONE⟩
  | .TOKEN_EQUAL => ⟨.Null, .Null, .PREC_NONE⟩
  | .TOKEN_EQUAL_EQUAL => ⟨.Null, .Null, .PREC_NONE⟩
  | .TOKEN_GREATER => ⟨.Null, .Null, .PREC_NONE⟩
  | .TOKEN_GREATER_EQUAL => ⟨.Null, .Null, .PREC_NONE⟩
  | .TOKEN_LESS => ⟨.Null, .Null, .PREC_NONE⟩
  | .TOKEN_LESS_EQUAL => ⟨.Null, .Null, .PREC_NONE⟩
  | .TOKEN_IDENTIFIER => ⟨.Null, .Null, .PREC_NONE⟩
  | .TOKEN_STRING => ⟨.Null, .Null, .PREC_NONE⟩
  | .TOKEN_NUMBER => ⟨.Number, .Null, .PREC_NONE⟩
  | .TOKEN_AND => ⟨.Null, .Null, .PREC_NONE⟩
  | .TOKEN_CLASS => ⟨.Null, .Null, .PREC_NONE⟩
  | .TOKEN_ELSE => ⟨.Null, .Null, .PREC_NONE⟩
  | .TOKEN_FALSE => ⟨.Null, .Null, .PREC_NONE⟩
  | .TOKEN_FOR => ⟨.Null, .Null, .PREC_NONE⟩
  | .TOKEN_FUN => ⟨.Null, .Null, .PREC_NONE⟩
  | .TOKEN_IF => ⟨.Null, .Null, .PREC_NONE⟩
  | .TOKEN_NIL => ⟨.Null, .Null, .PREC_NONE⟩
  | .TOKEN_OR => ⟨.Null, .Null, .PREC_NONE⟩
  | .TOKEN_PRINT => ⟨.Null, .Null, .PREC_NONE⟩
  | .TOKEN_RETURN => ⟨.Null, .Null, .PREC_NONE⟩
  | .TOKEN_SUPER => ⟨.Null, .Null, .PREC_NONE⟩
  | .TOKEN_THIS => ⟨.Null, .Null, .PREC_NONE⟩
  | .TOKEN_TRUE => ⟨.Null, .Null, .PREC_NONE⟩
  | .TOKEN_VAR => ⟨.Null, .Null, .PREC_NONE⟩
  | .TOKEN_WHILE => ⟨.Null, .Null, .PREC_NONE⟩
  | .TOKEN_ERROR => ⟨.Null, .Null, .PREC_NONE⟩
  | .TOKEN_EOF => ⟨.Null, .Null, .PREC_NONE⟩

/-! ## OpCode (`src/op_code.rs`) and the missing `src/op.rs` -/

inductive OpCode where
  | OP_CONSTANT | OP_ADD | OP_SUBTRACT | OP_MULTIPLY | OP_DIVIDE
  | OP_NEGATE | OP_RETURN | OP_TRUE | OP_FALSE | OP_EQUAL | OP_GREATER
  | OP_LESS | OP_NOT | OP_NIL
  deriving DecidableEq

/-- `repr(u8)` discriminant (`IntoPrimitive`). -/
def OpCode.toByte : OpCode → Nat
  | .OP_CONSTANT => 0 | .OP_ADD => 1 | .OP_SUBTRACT => 2 | .OP_MULTIPLY => 3
  | .OP_DIVIDE => 4 | .OP_NEGATE => 5 | .OP_RETURN => 6 | .OP_TRUE => 7
  | .OP_FALSE => 8 | .OP_EQUAL => 9 | .OP_GREATER => 10 | .OP_LESS => 11
  | .OP_NOT => 12 | .OP_NIL => 13

/-- `TryFromPrimitive` for `OpCode`. -/
def OpCode.tryFrom (n : Nat) : Option OpCode :=
  if n = 0 then some .OP_CONSTANT else if n = 1 then some .OP_ADD
  else if n = 2 then some .OP_SUBTRACT else if n = 3 then some .OP_MULTIPLY
  else if n = 4 then some .OP_DIVIDE else if n = 5 then some .OP_NEGATE
  else if n = 6 then some .OP_RETURN else if n = 7 then some .OP_TRUE
  else if n = 8 then some .OP_FALSE else if n = 9 then some .OP_EQUAL
  else if n = 10 then some .OP_GREATER else if n = 11 then some .OP_LESS
  else if n = 12 then some .OP_NOT else if n = 13 then some .OP_NIL
  else none

/-- `BinaryOp` from `src/op.rs`.  Modelled from the spec: `lib.rs` declares
`pub mod op;` but `op.rs` is absent from the snapshot; the enum's six
variants are fixed by every use in `vm.rs` (`Add`, `Sub`, `Div`, `Mul`,
`Greater`, `Less`) and by the spec's opcode list. -/
inductive BinaryOp where
  | Add | Sub | Div | Mul | Greater | Less
  deriving DecidableEq

/-! ## Parser / Compiler (`src/compiler/parser.rs`, `src/compiler/mod.rs`)

Diagnostic printing (`error_at`\'s `eprint!`/`println!`) is side-effect-free
here; only the flag updates are modelled, which is all the compile result
depends on.  The compiler functions pass their state explicitly; `CompRes`
distinguishes a normal step from a Rust panic and from fuel exhaustion. -/

structure Parser where
  current : Option Token
  previous : Option Token
  had_error : Bool
  panic_mode : Bool
  deriving DecidableEq

structure CompState where
  parser : Parser
  scanner : Scanner
  chunk : Chunk
  deriving DecidableEq

inductive CompRes where
  | ok (st : CompState)
  | crashed
  | fuelOut
  deriving DecidableEq

/-- `Compiler::error_at`: suppressed entirely in panic mode; otherwise sets
`panic_mode` and `had_error` (the printing is elided). -/
def error_at (st : CompState) (_tok : Token) (_msg : List Nat) : CompState :=
  if st.parser.panic_mode then st
  else { st with parser := { st.parser with panic_mode := true, had_error := true } }

/-- `Compiler::error_at_current`: silently does nothing when there is no
current token. -/
def error_at_current (st : CompState) (msg : List Nat) : CompState :=
  match st.parser.current with
  | some cur => error_at st cur msg
  | none => st

/-- `Compiler::error`: reports at `previous`, `unwrap`ping it (panic when
`previous` is `None`). -/
def errorC (st : CompState) (msg : List Nat) : Option CompState :=
  match st.parser.previous with
  | some prev => some (error_at st prev msg)
  | none => none

/-- The token-pulling loop inside `Compiler::advance`: pull tokens until a
non-error token (or `None`); error tokens are reported and skipped. -/
def advLoop : Nat → CompState → CompRes
  | 0, _ => .fuelOut
  | f + 1, st =>
    match scan_token (st.scanner.source.length + 2) st.scanner with
    | .crashed => .crashed
    | .fuelOut => .fuelOut
    | .nothing sc1 =>
      .ok { st with scanner := sc1, parser := { st.parser with current := none } }
    | .tok sc1 t =>
      let st1 : CompState :=
        { st with scanner := sc1, parser := { st.parser with current := some t } }
      if t.token_type ≠ .TOKEN_ERROR then .ok st1
      else advLoop f (error_at_current st1 t.message)

/-- `Compiler::advance`. -/
def advanceC (st : CompState) : CompRes :=
  let st1 : CompState :=
    { st with parser := { st.parser with previous := st.parser.current } }
  advLoop (st1.scanner.source.length + 2) st1

/-- `Compiler::emit_byte`: silently does nothing when `previous` is `None`. -/
def emit_byte (st : CompState) (b : Nat) : CompState :=
  match st.parser.previous with
  | some prev => { st with chunk := st.chunk.write b prev.line }
  | none => st

def emit_bytes (st : CompState) (b1 b2 : Nat) : CompState :=
  emit_byte (emit_byte st b1) b2

/-- `Compiler::consume`. -/
def consumeC (st : CompState) (tt : TokenType) (msg : List Nat) : CompRes :=
  match st.parser.current with
  | some cur =>
    if cur.token_type = tt then advanceC st else .ok (error_at_current st msg)
  | none => .ok (error_at_current st msg)

/-- `Compiler::make_constant`: `add_constant` then an `as u8` cast, i.e. the
index truncated mod 256 — there is no capacity check. -/
def make_constant (st : CompState) (v : Value) : CompState × Nat :=
  let (c1, idx) := st.chunk.add_constant v
  ({ st with chunk := c1 }, idx % 256)

def emit_constant (st : CompState) (v : Value) : CompState :=
  let (st1, c) := make_constant st v
  emit_bytes st1 (OpCode.toByte .OP_CONSTANT) c

/-- `Compiler::number`: parse `previous`\'s lexeme; a failed parse is a
`panic!` (`none` here).  Does nothing when `previous` is `None`. -/
def numberC (st : CompState) : Option CompState :=
  match st.parser.previous with
  | some tok =>
    match fromStrQ tok.message with
    | some q => some (emit_constant st (.VAL_NUMBER q))
    | none => none
  | none => some st

/-- `Compiler::literal`. -/
def literalC (st : CompState) : CompState :=
  match st.parser.previous with
  | some prev =>
    match prev.token_type with
    | .TOKEN_FALSE => emit_byte st (OpCode.toByte .OP_FALSE)
    | .TOKEN_TRUE => emit_byte st (OpCode.toByte .OP_TRUE)
    | .TOKEN_NIL => emit_byte st (OpCode.toByte .OP_NIL)
    | _ => st
  | none => st

/-- `Compiler::string` (with `clone_string`). -/
def stringC (st : CompState) : CompState :=
  match st.parser.previous with
  | some prev => emit_constant st (.VAL_OBJECT ⟨.OBJ_STRING prev.message⟩)
  | none => st

/-- Tasks of the mutually recursive parser functions in `compiler/mod.rs`
(`expression`, `parse_precedence`, its trailing infix `while` loop, and
`grouping`), folded into one fuel-indexed function so the recursion is
structural. -/
inductive PTask where
  | expr
  | prec (p : Precedence)
  | infixLoop (p : Precedence)
  | group
  deriving DecidableEq

/-- `Compiler::parse_precedence` / `expression` / `grouping` and the body of
`Compiler::unary` / `Compiler::binary`.

Early-`return` points in the Rust code (the missing-prefix-rule error) skip
the infix loop, mirrored by branching.  The `unreachable!()` arms are
`.crashed`.  `binary` parses its right operand at `rule.precedence + 1`,
`unwrap`ping `Precedence::try_from` (panic when the increment leaves the
enum\'s range). -/
def pstep : Nat → PTask → CompState → CompRes
  | 0, _, _ => .fuelOut
  | f + 1, t, st =>
    match t with
    | .expr => pstep f (.prec .PREC_ASSIGNMENT) st
    | .group =>
      (match pstep f .expr st with
       | .crashed => .crashed
       | .fuelOut => .fuelOut
       | .ok st1 =>
         consumeC st1 .TOKEN_RIGHT_PAREN
           (bytesOf "Expected " ++ [39, 41, 39] ++ bytesOf " after expression."))
    | .prec p =>
      (match advanceC st with
       | .crashed => .crashed
       | .fuelOut => .fuelOut
       | .ok st1 =>
         match st1.parser.previous with
         | none => pstep f (.infixLoop p) st1
         | some prev =>
           match (ParseRule.from_token_type prev.token_type).prefixFn with
           | .Null =>
             (match errorC st1 (bytesOf "Expected expression.") with
              | some st2 => .ok st2
              | none => .crashed)
           | .Grouping =>
             (match pstep f .group st1 with
              | .crashed => .crashed
              | .fuelOut => .fuelOut
              | .ok st2 => pstep f (.infixLoop p) st2)
           | .Unary =>
             (match pstep f (.prec .PREC_UNARY) st1 with
              | .crashed => .crashed
              | .fuelOut => .fuelOut
              | .ok st2 =>
                match prev.token_type with
                | .TOKEN_MINUS =>
                  pstep f (.infixLoop p) (emit_byte st2 (OpCode.toByte .OP_NEGATE))
                | .TOKEN_BANG =>
                  pstep f (.infixLoop p) (emit_byte st2 (OpCode.toByte .OP_NOT))
                | _ => .crashed)
           | .Number =>
             (match numberC st1 with
              | some st2 => pstep f (.infixLoop p) st2
              | none => .crashed)
           | .Literal => pstep f (.infixLoop p) (literalC st1)
           | .Str => pstep f (.infixLoop p) (stringC st1)
           | .Binary => .crashed)
    | .infixLoop p =>
      (match st.parser.current with
       | none => .ok st
       | some cur =>
         if Precedence.gt p (ParseRule.from_token_type cur.token_type).precedence then
           .ok st
         else
           match advanceC st with
           | .crashed => .crashed
           | .fuelOut => .fuelOut
           | .ok st1 =>
             match st1.parser.previous with
             | none => pstep f (.infixLoop p) st1
             | some prev =>
               match (ParseRule.from_token_type prev.token_type).infixFn with
               | .Binary =>
                 (match Precedence.tryFrom
                     ((ParseRule.from_token_type prev.token_type).precedence.toU8 + 1) with
                  | none => .crashed
                  | some p2 =>
                    match pstep f (.prec p2) st1 with
                    | .crashed => .crashed
                    | .fuelOut => .fuelOut
                    | .ok st2 =>
                      let emitted : Option CompState :=
                        match prev.token_type with
                        | .TOKEN_PLUS => some (emit_byte st2 (OpCode.toByte .OP_ADD))
                        | .TOKEN_MINUS => some (emit_byte st2 (OpCode.toByte .OP_SUBTRACT))
                        | .TOKEN_STAR => some (emit_byte st2 (OpCode.toByte .OP_MULTIPLY))
                        | .TOKEN_SLASH => some (emit_byte st2 (OpCode.toByte .OP_DIVIDE))
                        | .TOKEN_BANG_EQUAL =>
                          some (emit_bytes st2 (OpCode.toByte .OP_EQUAL) (OpCode.toByte .OP_NOT))
                        | .TOKEN_EQUAL_EQUAL => some (emit_byte st2 (OpCode.toByte .OP_EQUAL))
                        | .TOKEN_GREATER => some (emit_byte st2 (OpCode.toByte .OP_GREATER))
                        | .TOKEN_GREATER_EQUAL =>
                          some (emit_bytes st2 (OpCode.toByte .OP_LESS) (OpCode.toByte .OP_NOT))
                        | .TOKEN_LESS => some (emit_byte st2 (OpCode.toByte .OP_LESS))
                        | .TOKEN_LESS_EQUAL =>
                          some (emit_bytes st2 (OpCode.toByte .OP_GREATER) (OpCode.toByte .OP_NOT))
                        | _ => none
                      match emitted with
                      | some st3 => pstep f (.infixLoop p) st3
                      | none => .crashed)
               | .Null => pstep f (.infixLoop p) st1
               | _ => .crashed)
termination_by structural f _ _ => f

/-- One step of `Chunk::disassemble_instruction`, modelling only what can
escape the pure printing: `.error true` is an indexing panic
(`lines[offset]`, `code[offset]`, `code[offset+1]` or
`constants.values[operand]` out of bounds), `.error false` is the
`OpCode::try_from` error propagated with `?`, `.ok next` is the returned
next offset. -/
def disasmInstrStep (c : Chunk) (offset : Nat) : Except Bool Nat :=
  match byteAt c.lines offset with
  | none => .error true
  | some _ =>
    match byteAt c.code offset with
    | none => .error true
    | some b =>
      match OpCode.tryFrom b with
      | none => .error false
      | some op =>
        match op with
        | .OP_CONSTANT =>
          match byteAt c.code (offset + 1) with
          | none => .error true
          | some operand =>
            match c.constants.values.get? operand with
            | none => .error true
            | some _ => .ok (offset + 2)
        | _ => .ok (offset + 1)

/-- `Chunk::disassemble_chunk`'s walk (`while offset < self.count`);
`some true` = a panic inside, `some false` = finished (normally or with the
ignored `Err` from an unknown opcode). -/
def disasmChunkCrashes : Nat → Chunk → Nat → Option Bool
  | 0, _, _ => none
  | f + 1, c, offset =>
    if offset < c.count then
      match disasmInstrStep c offset with
      | .error true => some true
      | .error false => some false
      | .ok next => disasmChunkCrashes f c next
    else some false

/-- Result of `Compiler::compile`. -/
inductive CompileOut where
  | done (st : CompState) (ok : Bool)
  | crashed
  | fuelOut
  deriving DecidableEq

/-- `Compiler::new` + `Compiler::compile`.  `Compiler::new` installs a
scanner over an empty buffer (`Scanner::new(vec![])`) whose `source` field
`compile` then replaces; `Parser::new` starts with `panic_mode = true`,
which `compile` immediately resets along with `had_error`.  On a clean
compile the chunk is disassembled (whose indexing can in principle panic,
so the walk is modelled). -/
def compileFn (f : Nat) (source : List Nat) (chunk0 : Chunk) : CompileOut :=
  let st0 : CompState :=
    { parser := { current := none, previous := none, had_error := false, panic_mode := true },
      scanner := { Scanner.new [] with source := source },
      chunk := chunk0 }
  let st0 : CompState :=
    { st0 with parser := { st0.parser with had_error := false, panic_mode := false } }
  match advanceC st0 with
  | .crashed => .crashed
  | .fuelOut => .fuelOut
  | .ok st1 =>
    match pstep f .expr st1 with
    | .crashed => .crashed
    | .fuelOut => .fuelOut
    | .ok st2 =>
      match consumeC st2 .TOKEN_EOF (bytesOf "Expected end of expression.") with
      | .crashed => .crashed
      | .fuelOut => .fuelOut
      | .ok st3 =>
        let st4 := emit_byte st3 (OpCode.toByte .OP_RETURN)
        if !st4.parser.had_error then
          match disasmChunkCrashes (st4.chunk.count + 1) st4.chunk 0 with
          | none => .fuelOut
          | some true => .crashed
          | some false => .done st4 (!st4.parser.had_error)
        else
          .done st4 (!st4.parser.had_error)

end RLox

namespace RLox

/-! ## Virtual machine (`src/vm.rs`) -/

/-- `MAX_STACK_SIZE` from `src/vm.rs`. -/
def MAX_STACK_SIZE : Nat := 256

/-- VM state; `stack` models the `[Option<Value>; MAX_STACK_SIZE]` array (its
length is `MAX_STACK_SIZE` in every state built here), and `reports` collects
the `(message, line)` pairs printed by `VM::runtime_error`. -/
structure VMState where
  chunk : Chunk
  ip : Nat
  stack : List (Option Value)
  sp : Nat
  reports : List (List Nat × Nat)
  deriving DecidableEq

/-- `VM::init_stack`. -/
def init_stack : List (Option Value) := List.replicate MAX_STACK_SIZE none

/-- Build the VM exactly as `VM::interpret` does after a successful compile. -/
def vmInit (c : Chunk) : VMState :=
  { chunk := c, ip := 0, stack := init_stack, sp := 0, reports := [] }

/-- `VM::push`: writes `stack[sp]` with no capacity check — when
`sp ≥ MAX_STACK_SIZE` the array index panics (`none` here). -/
def vmPush (st : VMState) (v : Value) : Option VMState :=
  if st.sp < MAX_STACK_SIZE then
    some { st with stack := st.stack.set st.sp (some v), sp := st.sp + 1 }
  else
    none

/-- `VM::pop`: `sp -= 1` (usize underflow panic at 0), then
`stack[sp].as_ref().unwrap()` (panic when the slot is `None`). -/
def vmPop (st : VMState) : Option (VMState × Value) :=
  if st.sp = 0 then none
  else
    match st.stack.get? (st.sp - 1) with
    | some (some v) => some ({ st with sp := st.sp - 1 }, v)
    | _ => none

/-- `VM::peek_at`: reads `stack[sp - at]` — one slot **above** the value at
distance `at` from the top (`sp - 0` is the first free slot, not the top).
Panics on usize underflow or an out-of-range index. -/
def vmPeekAt (st : VMState) (at_ : Nat) : Option (Option Value) :=
  if at_ ≤ st.sp && st.sp - at_ < MAX_STACK_SIZE then
    match st.stack.get? (st.sp - at_) with
    | some ov => some ov
    | none => none
  else none

/-- `VM::runtime_error`: prints the message, then the line obtained by
indexing `lines` at `ip - sp - 1` (usize underflow/index panics modelled);
it does **not** stop the interpreter loop. -/
def runtime_error (st : VMState) (msg : List Nat) : Option VMState :=
  if st.sp + 1 ≤ st.ip then
    match byteAt st.chunk.lines (st.ip - st.sp - 1) with
    | some line => some { st with reports := st.reports ++ [(msg, line)] }
    | none => none
  else none

/-- `VM::is_falsey`. -/
def is_falsey (v : Value) : Bool := v = .VAL_NIL || v = .VAL_BOOL false

/-- `VM::values_equal`. -/
def values_equal (a b : Value) : Bool :=
  match a, b with
  | .VAL_BOOL x, .VAL_BOOL y => x = y
  | .VAL_NUMBER x, .VAL_NUMBER y => x = y
  | .VAL_OBJECT x, .VAL_OBJECT y => x = y
  | .VAL_NIL, .VAL_NIL => true
  | _, _ => false

/-- `VM::binary_op`: pop `b` then `a`; `Greater`/`Less` push the derived
`PartialOrd` comparison of the raw `Value`s (no type check); the arithmetic
ops push the numeric result on `Ok` and call `runtime_error` on `Err`,
pushing nothing and letting the loop continue. -/
def binary_op (st : VMState) (op : BinaryOp) : Option VMState := do
  let (st1, b) ← vmPop st
  let (st2, a) ← vmPop st1
  match op with
  | .Greater => vmPush st2 (.VAL_BOOL (valueGt a b))
  | .Less => vmPush st2 (.VAL_BOOL (valueLt a b))
  | _ =>
    let r :=
      match op with
      | .Add => valueArith (fun x y => x + y) a b
      | .Sub => valueArith (fun x y => x - y) a b
      | .Div => valueArith (fun x y => x / y) a b
      | _ => valueArith (fun x y => x * y) a b
    match r with
    | .ok q => vmPush st2 (.VAL_NUMBER q)
    | .error e => runtime_error st2 e

/-- `VM::concatenate`: pop `b` then `a`; `push_str` mutates throw-away clones,
and the pushed value is `OBJ_STRING(a.to_string())` — the `Display` rendering
of `a` (the string plus two newlines, one from each nested `writeln!`),
not the concatenation.  Non-object operands are `unreachable!()`. -/
def concatenate (st : VMState) : Option VMState := do
  let (st1, b) ← vmPop st
  let (st2, a) ← vmPop st1
  match a, b with
  | .VAL_OBJECT oa, .VAL_OBJECT _ =>
    vmPush st2 (.VAL_OBJECT ⟨.OBJ_STRING (objectDisplay oa ++ [10])⟩)
  | _, _ => none

/-- Does the stack-trace print at the top of `VM::run` panic?  It reads
`stack[i].clone().unwrap()` for every `i < sp`. -/
def traceCrashes (st : VMState) : Bool :=
  decide (MAX_STACK_SIZE < st.sp) || !((st.stack.take st.sp).all Option.isSome)

/-- Result of `VM::run`. -/
inductive RunRes where
  | retOk (st : VMState)
  | errR (st : VMState) (msg : List Nat)
  | crashed
  | fuelOut
  deriving DecidableEq

/-- `VM::run`: trace print, ignored `disassemble_instruction` (whose indexing
panics are kept), fetch, dispatch.  `OP_ADD` first peeks `stack[sp]` and
`stack[sp-1]` (the off-by-one reads), possibly concatenating or reporting,
and **always** falls through to numeric `binary_op` afterwards.  `OP_NEGATE`
propagates its `Err` out of `run` via `?`; the arithmetic type errors inside
`binary_op` are only reported and the loop continues. -/
def runLoop : Nat → VMState → RunRes
  | 0, _ => .fuelOut
  | f + 1, st =>
    if traceCrashes st then .crashed
    else
      match disasmInstrStep st.chunk st.ip with
      | .error true => .crashed
      | _ =>
        match byteAt st.chunk.code st.ip with
        | none => .crashed
        | some b =>
          let st1 : VMState := { st with ip := st.ip + 1 }
          match OpCode.tryFrom b with
          | none => .errR st1 (bytesOf "TryFromPrimitiveError")
          | some op =>
            match op with
            | .OP_RETURN => .retOk st1
            | .OP_CONSTANT =>
              (match byteAt st1.chunk.code st1.ip with
               | none => .crashed
               | some operand =>
                 let st2 : VMState := { st1 with ip := st1.ip + 1 }
                 match st2.chunk.constants.values.get? operand with
                 | none => .crashed
                 | some v =>
                   match vmPush st2 v with
                   | some st3 => runLoop f st3
                   | none => .crashed)
            | .OP_NEGATE =>
              (match vmPop st1 with
               | none => .crashed
               | some (st2, v) =>
                 match valueNeg v with
                 | .ok v2 =>
                   match vmPush st2 v2 with
                   | some st3 => runLoop f st3
                   | none => .crashed
                 | .error e => .errR st2 e)
            | .OP_TRUE =>
              (match vmPush st1 (.VAL_BOOL true) with
               | some st2 => runLoop f st2
               | none => .crashed)
            | .OP_FALSE =>
              (match vmPush st1 (.VAL_BOOL false) with
               | some st2 => runLoop f st2
               | none => .crashed)
            | .OP_NIL =>
              (match vmPush st1 .VAL_NIL with
               | some st2 => runLoop f st2
               | none => .crashed)
            | .OP_EQUAL =>
              (match vmPop st1 with
               | none => .crashed
               | some (st2, b2) =>
                 match vmPop st2 with
                 | none => .crashed
                 | some (st3, a2) =>
                   match vmPush st3 (.VAL_BOOL (values_equal a2 b2)) with
                   | some st4 => runLoop f st4
                   | none => .crashed)
            | .OP_NOT =>
              (match vmPop st1 with
               | none => .crashed
               | some (st2, v) =>
                 match vmPush st2 (.VAL_BOOL (is_falsey v)) with
                 | some st3 => runLoop f st3
                 | none => .crashed)
            | .OP_GREATER =>
              (match binary_op st1 .Greater with
               | some st2 => runLoop f st2
               | none => .crashed)
            | .OP_LESS =>
              (match binary_op st1 .Less with
               | some st2 => runLoop f st2
               | none => .crashed)
            | .OP_SUBTRACT =>
              (match binary_op st1 .Sub with
               | some st2 => runLoop f st2
               | none => .crashed)
            | .OP_MULTIPLY =>
              (match binary_op st1 .Mul with
               | some st2 => runLoop f st2
               | none => .crashed)
            | .OP_DIVIDE =>
              (match binary_op st1 .Div with
               | some st2 => runLoop f st2
               | none => .crashed)
            | .OP_ADD =>
              let afterPeek : Option VMState :=
                match vmPeekAt st1 0 with
                | none => none
                | some optA =>
                  match optA with
                  | none => some st1
                  | some a =>
                    match vmPeekAt st1 1 with
                    | none => none
                    | some optB =>
                      match optB with
                      | none => some st1
                      | some b2 =>
                        match a, b2 with
                        | .VAL_OBJECT _, .VAL_OBJECT _ => concatenate st1
                        | _, _ =>
                          runtime_error st1
                            (bytesOf "Operands must be either addable or concatenatable.")
              match afterPeek with
              | none => .crashed
              | some st2 =>
                match binary_op st2 .Add with
                | some st3 => runLoop f st3
                | none => .crashed

/-- Result of `VM::interpret`.  The Rust signature can surface either
`InterpretError` variant (`main.rs` matches on both to pick the exit code),
so `runtimeErr` models a returned `InterpretError::RUNTIME_ERROR`; no code
path in `vm.rs` constructs that variant, which the theorems below record. -/
inductive InterpOut where
  | compileErr
  | runtimeErr
  | okRun (st : VMState)
  | errRun (msg : List Nat)
  | crashed
  | fuelOut
  deriving DecidableEq

/-- `VM::interpret`: compile into a fresh chunk; a failed compile is
`COMPILE_ERROR`; otherwise run the VM over the chunk.  `run`'s `Err` values
propagate out; note that no path constructs `InterpretError::RUNTIME_ERROR`. -/
def interpret (f : Nat) (source : List Nat) : InterpOut :=
  match compileFn f source Chunk.default with
  | .crashed => .crashed
  | .fuelOut => .fuelOut
  | .done st ok =>
    if !ok then .compileErr
    else
      match runLoop f (vmInit st.chunk) with
      | .retOk vst => .okRun vst
      | .errR _ msg => .errRun msg
      | .crashed => .crashed
      | .fuelOut => .fuelOut

/-! Small projections used to state concrete-run facts. -/

/-- The value on top of the stack after a run, if any. -/
def VMState.top (st : VMState) : Option Value :=
  match st.stack.get? (st.sp - 1) with
  | some ov => if st.sp = 0 then none else ov
  | none => none

def RunRes.isRetOk : RunRes → Bool
  | .retOk _ => true
  | _ => false

def RunRes.finalState : RunRes → Option VMState
  | .retOk st => some st
  | .errR st _ => some st
  | _ => none

def InterpOut.kind : InterpOut → Nat
  | .compileErr => 0
  | .okRun _ => 1
  | .errRun _ => 2
  | .crashed => 3
  | .fuelOut => 4
  | .runtimeErr => 5

end RLox

namespace RLox

/-! ## Concrete inputs and projections used by the claim theorems -/

/-- Top-of-stack / report / status projections of a `VM::run` result. -/
def RunRes.reportsOf : RunRes → Option (List (List Nat × Nat))
  | .retOk st => some st.reports
  | _ => none

def RunRes.spOf : RunRes → Option Nat
  | .retOk st => some st.sp
  | _ => none

def RunRes.topOf : RunRes → Option (Option Value)
  | .retOk st => some st.top
  | _ => none

def CompileOut.okOf : CompileOut → Option Bool
  | .done _ ok => some ok
  | _ => none

def CompileOut.codeOf : CompileOut → Option (List Nat)
  | .done st _ => some st.chunk.code
  | _ => none

def CompileOut.poolCount : CompileOut → Option Nat
  | .done st _ => some st.chunk.constants.count
  | _ => none

def CompileOut.codeByte : CompileOut → Nat → Option Nat
  | .done st _, i => byteAt st.chunk.code i
  | _, _ => none

/-- Bytecode of `true * 2` (built through `Chunk::write`/`add_constant`
exactly like the hand-built chunk in `vm.rs`'s own test):
TRUE, CONSTANT 0 (= 2), MULTIPLY, RETURN, all on line 123. -/
def mulChunk : Chunk :=
  let c := Chunk.default
  let (c, _) := c.add_constant (.VAL_NUMBER 2)
  ((((c.write (OpCode.toByte .OP_TRUE) 123).write
      (OpCode.toByte .OP_CONSTANT) 123).write 0 123).write
      (OpCode.toByte .OP_MULTIPLY) 123).write (OpCode.toByte .OP_RETURN) 123

/-- Bytecode of `true > 2`: TRUE, CONSTANT 0 (= 2), GREATER, RETURN. -/
def gtChunk : Chunk :=
  let c := Chunk.default
  let (c, _) := c.add_constant (.VAL_NUMBER 2)
  ((((c.write (OpCode.toByte .OP_TRUE) 123).write
      (OpCode.toByte .OP_CONSTANT) 123).write 0 123).write
      (OpCode.toByte .OP_GREATER) 123).write (OpCode.toByte .OP_RETURN) 123

/-- Bytecode of `"st" + "ri"`: CONSTANT 0 ("st"), CONSTANT 1 ("ri"), ADD,
RETURN — both of the top two stack values are String objects when ADD runs. -/
def strAddChunk : Chunk :=
  let c := Chunk.default
  let (c, _) := c.add_constant (.VAL_OBJECT ⟨.OBJ_STRING (bytesOf "st")⟩)
  let (c, _) := c.add_constant (.VAL_OBJECT ⟨.OBJ_STRING (bytesOf "ri")⟩)
  (((((c.write (OpCode.toByte .OP_CONSTANT) 123).write 0 123).write
      (OpCode.toByte .OP_CONSTANT) 123).write 1 123).write
      (OpCode.toByte .OP_ADD) 123).write (OpCode.toByte .OP_RETURN) 123

/-- Bytecode whose evaluation needs 257 operand-stack slots: 257 times
CONSTANT 0 (= 1), then RETURN (the bytecode of the 256-fold right-nested
source `1+(1+(…+(1)…))`, whose every addition is still pending when the
257th literal is pushed). -/
def push257Chunk : Chunk :=
  { code := (List.replicate 257 [OpCode.toByte .OP_CONSTANT, 0]).flatten
      ++ [OpCode.toByte .OP_RETURN],
    count := 515,
    constants := ⟨1, [.VAL_NUMBER 1]⟩,
    lines := List.replicate 515 1 }

/-- A chunk whose constant pool already holds 256 entries, as any caller of
the public `Compiler::new(&mut chunk)` can supply (the repo's own tests build
chunks by hand); compiling one more literal into it must exceed the
single-byte index space. -/
def prefill256 : Chunk :=
  (List.range 256).foldl (fun c i => (c.add_constant (.VAL_NUMBER i)).1) Chunk.default

end RLox

namespace RLox

set_option maxRecDepth 1000000
set_option maxHeartbeats 8000000

/-! ## Claim theorems -/

/-- **C1**.  The claim says a type-mismatched arithmetic or ordering
instruction makes `interpret` report the error with its line and return the
`RuntimeError` kind, aborting at that instruction.  The code instead: for
`true * 2` (`mulChunk`) the VM prints the message and line but pushes
nothing, keeps executing and `run` returns `Ok` with an empty stack; for
`true > 2` (`gtChunk`) no error is reported at all — GREATER pushes the
derived `PartialOrd` comparison of the mismatched values (`false` here) and
the run ends normally with it on top of the stack. -/
theorem c1_type_error_reported_but_run_returns_ok :
    (runLoop 100 (vmInit mulChunk)).reportsOf
        = some [(bytesOf "Value must be a number", 123)] ∧
    (runLoop 100 (vmInit mulChunk)).spOf = some 0 ∧
    (runLoop 100 (vmInit gtChunk)).reportsOf = some [] ∧
    (runLoop 100 (vmInit gtChunk)).topOf = some (some (.VAL_BOOL false)) := by
  decide

/-- **C2**.  The claim says the ADD handler, with two String objects on top,
pops both and pushes their concatenation, and that `"st" + "ri" + "ng"`
leaves `"string"` on the stack.  In the code `peek_at(at)` reads
`stack[sp - at]` — one slot above the top — so the handler peeks `None`,
falls through to numeric addition, reports "Value must be a number" and
pushes nothing (`strAddChunk`); and the source `"st" + "ri" + "ng"` does not
even compile, because `TOKEN_STRING` has no prefix rule in
`parse_rule.rs` ("Expected expression."). -/
theorem c2_string_add_does_not_concatenate :
    (runLoop 100 (vmInit strAddChunk)).reportsOf
        = some [(bytesOf "Value must be a number", 123)] ∧
    (runLoop 100 (vmInit strAddChunk)).spOf = some 0 ∧
    interpret 200 (bytesOf "\"st\" + \"ri\" + \"ng\"") = .compileErr := by
  decide

/-- **C3**.  The claim (and the repository's own test
`parse_precedence_boolean_should_succeed`) says `!(5 - 4 > 3 * 2 == !nil)`
compiles to the 12-instruction sequence.  With the rule table actually in
`parse_rule.rs` — `!` has a `Null` prefix rule and `>`/`==` have `Null`
infix rules at `PREC_NONE` — the compile reports "Expected expression." at
the leading `!` and returns `false`, emitting only the trailing RETURN. -/
theorem c3_bang_comparison_source_fails_to_compile :
    (compileFn 300 (bytesOf "!(5 - 4 > 3 * 2 == !nil)") Chunk.default).okOf
        = some false ∧
    (compileFn 300 (bytesOf "!(5 - 4 > 3 * 2 == !nil)") Chunk.default).codeOf
        = some [OpCode.toByte .OP_RETURN] ∧
    (compileFn 300 (bytesOf "!(5 - 4 > 3 * 2 == !nil)") Chunk.default).poolCount
        = some 0 := by
  decide

/-- **C6**.  The claim says `!` followed by `=` lexes as the single token
`!=` and `!` followed by anything else as `TOKEN_BANG`.  The `'!'` arm of
`scan_token` calls `match_token('-')`, so `"!="` lexes as `TOKEN_BANG`
(lexeme `!`) followed by a crash — the `'='` arm then calls
`match_token('=')` at the end of input, which walks `current` past the
buffer and `make_token`'s slice panics — while `"!-"` lexes as
`TOKEN_BANG_EQUAL`. -/
theorem c6_bang_equal_mislexed :
    (scanCalls 2 100 (Scanner.new (bytesOf "!="))).map ScanOut.tokType
        = [some .TOKEN_BANG, none] ∧
    (scanCalls 2 100 (Scanner.new (bytesOf "!="))).map ScanOut.tokMsg
        = [some (bytesOf "!"), none] ∧
    (scanCalls 2 100 (Scanner.new (bytesOf "!="))).map ScanOut.isCrash
        = [false, true] ∧
    (scanCalls 3 100 (Scanner.new (bytesOf "!-"))).map ScanOut.tokType
        = [some .TOKEN_BANG_EQUAL, some .TOKEN_EOF, none] := by
  decide

/-- **C7**.  The claim says an identifier with a reserved word as a proper
prefix ("andy", "fortune") lexes as one `TOKEN_IDENTIFIER` covering the
word.  `check_keyword` compares only the keyword-length slice and sets
`current` past it without checking where the identifier ends, so "andy"
lexes as `TOKEN_AND` (lexeme "and") followed by the identifier "y", and
"fortune" starts with `TOKEN_FOR`. -/
theorem c7_keyword_prefix_matching :
    (scanCalls 3 100 (Scanner.new (bytesOf "andy"))).map ScanOut.tokType
        = [some .TOKEN_AND, some .TOKEN_IDENTIFIER, some .TOKEN_EOF] ∧
    (scanCalls 3 100 (Scanner.new (bytesOf "andy"))).map ScanOut.tokMsg
        = [some (bytesOf "and"), some (bytesOf "y"), some []] ∧
    (scanCalls 1 100 (Scanner.new (bytesOf "fortune"))).map ScanOut.tokType
        = [some .TOKEN_FOR] := by
  decide







/-- **C4 counterexample**.  A compile call over a chunk whose constant pool
already has 256 entries (as any caller of the public `Compiler::new` can
supply) compiles the number literal `1` — which makes the pool exceed 256
entries — and still returns `true` instead of failing. -/
theorem c4_pool_overflow_compile_still_succeeds :
    (compileFn 100 (bytesOf "1") prefill256).okOf = some true := by
  decide

/-- **C4 amended**.  `make_constant` is `add_constant as u8`: the new
constant is appended as entry 256 (the pool grows to 257) and the emitted
operand byte is the index truncated mod 256, i.e. `0` — a wrapped single-byte
constant index, with no compile-time failure. -/
theorem c4_pool_overflow_wraps_constant_index :
    (compileFn 100 (bytesOf "1") prefill256).okOf = some true ∧
    (compileFn 100 (bytesOf "1") prefill256).poolCount = some 257 ∧
    (compileFn 100 (bytesOf "1") prefill256).codeOf
        = some [OpCode.toByte .OP_CONSTANT, 0, OpCode.toByte .OP_RETURN] := by
  decide

theorem take_succ_set_all {v : Value} : ∀ (s : List (Option Value)) (k : Nat),
    k < s.length → ((s.take k).all Option.isSome) = true →
    (((s.set k (some v)).take (k + 1)).all Option.isSome) = true := by
  intro s
  induction s with
  | nil => intro k hk _; simp at hk
  | cons a r ih =>
    intro k hk hall
    cases k with
    | zero => simp
    | succ k =>
      simp only [List.set_cons_succ, List.take_succ_cons, List.all_cons] at hall ⊢
      simp only [Bool.and_eq_true] at hall ⊢
      exact ⟨hall.1, ih k (by simpa using hk) hall.2⟩

theorem flatten_pair_get0 {a b : Nat} {t : List Nat} : ∀ (n k : Nat), k < n →
    byteAt ((List.replicate n [a, b]).flatten ++ t) (2 * k) = some a := by
  intro n
  induction n with
  | zero => intro k hk; omega
  | succ n ih =>
    intro k hk
    simp only [List.replicate_succ, List.flatten_cons, List.cons_append,
        List.singleton_append, List.append_assoc]
    cases k with
    | zero => rfl
    | succ k =>
      have h2 : 2 * (k + 1) = 2 * k + 1 + 1 := by ring
      rw [h2]
      unfold byteAt
      rw [List.get?_cons_succ, List.get?_cons_succ]
      exact ih k (by omega)

theorem flatten_pair_get1 {a b : Nat} {t : List Nat} : ∀ (n k : Nat), k < n →
    byteAt ((List.replicate n [a, b]).flatten ++ t) (2 * k + 1) = some b := by
  intro n
  induction n with
  | zero => intro k hk; omega
  | succ n ih =>
    intro k hk
    simp only [List.replicate_succ, List.flatten_cons, List.cons_append,
        List.singleton_append, List.append_assoc]
    cases k with
    | zero => rfl
    | succ k =>
      have h2 : 2 * (k + 1) + 1 = 2 * k + 1 + 1 + 1 := by ring
      rw [h2]
      unfold byteAt
      rw [List.get?_cons_succ, List.get?_cons_succ]
      exact ih k (by omega)

theorem replicate_byteAt {x : Nat} {n i : Nat} (h : i < n) :
    byteAt (List.replicate n x) i = some x := by
  unfold byteAt
  rw [List.get?_eq_getElem?, List.getElem?_replicate, if_pos h]

theorem pushChainCrashes : ∀ (f : Nat), ∀ (k : Nat) (s : List (Option Value))
    (rp : List (List Nat × Nat)),
    k ≤ 256 → 257 - k ≤ f → s.length = 256 →
    ((s.take k).all Option.isSome) = true →
    runLoop f ⟨push257Chunk, 2 * k, s, k, rp⟩ = .crashed := by
  intro f
  induction f with
  | zero => intro k s rp hk hf _ _; omega
  | succ f ih =>
    intro k s rp hk hf hlen hall
    have htr : traceCrashes ⟨push257Chunk, 2 * k, s, k, rp⟩ = false := by
      simp only [traceCrashes, MAX_STACK_SIZE]
      simp [hall]
      omega
    have hline : byteAt push257Chunk.lines (2 * k) = some 1 :=
      replicate_byteAt (by omega)
    have hcode0 : byteAt push257Chunk.code (2 * k) = some 0 :=
      flatten_pair_get0 257 k (by omega)
    have hcode1 : byteAt push257Chunk.code (2 * k + 1) = some 0 :=
      flatten_pair_get1 257 k (by omega)
    have hdi : disasmInstrStep push257Chunk (2 * k) = .ok (2 * k + 2) := by
      unfold disasmInstrStep
      rw [hline]
      dsimp only
      rw [hcode0]
      dsimp only
      rw [hcode1]
      rfl
    simp only [runLoop]
    rw [htr]
    simp only [Bool.false_eq_true, if_false]
    rw [hdi]
    dsimp only
    rw [hcode0]
    dsimp only
    rw [hcode1]
    dsimp only
    rw [show OpCode.tryFrom 0 = some OpCode.OP_CONSTANT from rfl]
    dsimp only
    rw [show push257Chunk.constants.values.get? 0 = some (Value.VAL_NUMBER 1) from rfl]
    dsimp only
    rcases Nat.lt_or_ge k 256 with hlt | hge
    · rw [show vmPush ⟨push257Chunk, 2 * k + 1 + 1, s, k, rp⟩ (.VAL_NUMBER 1)
          = some ⟨push257Chunk, 2 * k + 1 + 1, s.set k (some (.VAL_NUMBER 1)), k + 1, rp⟩ from by
        unfold vmPush
        dsimp only
        rw [if_pos (show k < MAX_STACK_SIZE from by simp only [MAX_STACK_SIZE]; omega)]]
      dsimp only
      rw [show 2 * k + 1 + 1 = 2 * (k + 1) from by ring]
      exact ih (k + 1) _ rp (by omega) (by omega)
        (by rw [List.length_set]; exact hlen)
        (take_succ_set_all s k (by omega) hall)
    · rw [show vmPush ⟨push257Chunk, 2 * k + 1 + 1, s, k, rp⟩ (.VAL_NUMBER 1) = none from by
        unfold vmPush
        dsimp only
        rw [if_neg (show ¬k < MAX_STACK_SIZE from by simp only [MAX_STACK_SIZE]; omega)]]

/-- **C5 counterexample**.  Running the bytecode of the 256-fold right-nested
addition (257 pending operands) crashes at the 257th push — an out-of-bounds
write into the 256-slot stack — instead of producing any reported
"stack overflow" `RuntimeError`. -/
theorem c5_stack_overflow_crashes_vm :
    runLoop 600 (vmInit push257Chunk) = .crashed := by
  have h := pushChainCrashes 600 0 init_stack [] (by omega) (by omega)
    (by rw [init_stack, List.length_replicate]; rfl) (by rw [List.take_zero]; rfl)
  rw [show vmInit push257Chunk = ⟨push257Chunk, 2 * 0, init_stack, 0, []⟩ from rfl]
  exact h

end RLox

namespace RLox

/-- **C5 amended**.  `VM::push` writes `stack[sp]` with no capacity check, so
at `sp ≥ MAX_STACK_SIZE` it is an out-of-bounds write (a panic), and no code
path of `interpret` ever returns `InterpretError::RUNTIME_ERROR` — the
overflow is never converted into a reported `RuntimeError`. -/
theorem c5_push_unchecked_and_no_runtime_error :
    (∀ (st : VMState) (v : Value), MAX_STACK_SIZE ≤ st.sp → vmPush st v = none) ∧
    (∀ (f : Nat) (src : List Nat), interpret f src ≠ .runtimeErr) := by
  constructor
  · intro st v h
    simp [vmPush, Nat.not_lt.mpr h]
  · intro f src
    unfold interpret
    cases compileFn f src Chunk.default with
    | crashed => simp
    | fuelOut => simp
    | done st ok =>
      cases ok with
      | false => simp
      | true => cases hr : runLoop f (vmInit st.chunk) <;> simp [hr]

/-- Witness for the C5 amended theorem at a concrete full stack and a
concrete source. -/
theorem c5_push_unchecked_witness :
    vmPush { chunk := Chunk.default, ip := 0, stack := init_stack,
             sp := 256, reports := [] } .VAL_NIL = none ∧
    interpret 5 (bytesOf "1") ≠ .runtimeErr :=
  ⟨c5_push_unchecked_and_no_runtime_error.1 _ .VAL_NIL (by decide),
   c5_push_unchecked_and_no_runtime_error.2 5 (bytesOf "1")⟩

/-- **C9**.  `Chunk::add_constant` appends the value, returns the pool's
count before the call as the index, the new value is at that index, the
count grows by one, stays equal to the vector's length, and all previously
stored constants are unchanged — on every chunk whose pool satisfies the
`count = values.len()` invariant (which `Chunk::default()` establishes and,
as shown, `add_constant` preserves; no other operation touches the pool). -/
theorem c9_add_constant_spec (c : Chunk) (v : Value)
    (h : c.constants.count = c.constants.values.length) :
    (c.add_constant v).2 = c.constants.count ∧
    (c.add_constant v).1.constants.values.get? c.constants.count = some v ∧
    (c.add_constant v).1.constants.count = c.constants.count + 1 ∧
    (c.add_constant v).1.constants.count
        = (c.add_constant v).1.constants.values.length ∧
    ∀ j, j < c.constants.count →
      (c.add_constant v).1.constants.values.get? j
        = c.constants.values.get? j := by
  unfold Chunk.add_constant ValueArray.write
  have hlt : c.constants.values.length < c.constants.count + 1 := by omega
  simp only [if_pos hlt]
  refine ⟨by omega, ?_, by simp, by simp [h], ?_⟩
  · rw [h]
    simp [List.get?_concat_length]
  · intro j hj
    show (c.constants.values ++ [v]).get? j = c.constants.values.get? j
    rw [List.get?_append (by omega)]

/-- Witness for C9 at the default chunk. -/
theorem c9_add_constant_spec_witness :
    (Chunk.default.add_constant .VAL_NIL).2 = 0 ∧
    (Chunk.default.add_constant .VAL_NIL).1.constants.count = 1 :=
  ⟨(c9_add_constant_spec Chunk.default .VAL_NIL rfl).1,
   (c9_add_constant_spec Chunk.default .VAL_NIL rfl).2.2.1⟩

end RLox

namespace RLox

theorem make_token_type {st : Scanner} {tt : TokenType} {t : Token}
    (h : st.make_token tt = some t) : t.token_type = tt := by
  unfold Scanner.make_token at h
  split at h
  · cases h; rfl
  · cases h

theorem commentLoop_finished : ∀ (f : Nat) (st st1 : Scanner),
    commentLoop f st = some st1 → st1.is_finished = st.is_finished := by
  intro f
  induction f with
  | zero => intro st st1 h; cases h
  | succ f ih =>
    intro st st1 h
    unfold commentLoop at h
    split at h
    · cases h; rfl
    · split at h
      · have h2 := ih _ _ h
        simpa using h2
      · cases h

theorem skip_whitespace_finished : ∀ (f : Nat) (st st1 : Scanner),
    skip_whitespace f st = some st1 → st1.is_finished = st.is_finished := by
  intro f
  induction f with
  | zero => intro st st1 h; cases h
  | succ f ih =>
    intro st st1 h
    unfold skip_whitespace at h
    split at h
    · cases h; rfl
    · split at h
      · have h2 := ih _ _ h
        simpa using h2
      · split at h
        · have h2 := ih _ _ h
          simpa using h2
        · dsimp only at h
          split at h
          · split at h
            · cases h; rfl
            · split at h
              · split at h
                · cases h
                · have h2 := ih _ _ h
                  have h3 := commentLoop_finished _ _ _ (by assumption)
                  simp at h3
                  rw [h2, h3]
              · have h2 := ih _ _ h
                simpa using h2
          · cases h; rfl

end RLox

namespace RLox

theorem scanNumber_type {f : Nat} {st st1 : Scanner} {t : Token}
    (h : scanNumber f st = .tok st1 t) : t.token_type = .TOKEN_NUMBER := by
  unfold scanNumber at h
  dsimp only at h
  repeat' split at h
  all_goals
    first
    | (cases h; exact make_token_type (by assumption))
    | cases h

theorem scanStringLit_type : ∀ (f : Nat) {st st1 : Scanner} {t : Token},
    scanStringLit f st = .tok st1 t →
    t.token_type = .TOKEN_STRING ∨ t.token_type = .TOKEN_ERROR := by
  intro f
  induction f with
  | zero => intro st st1 t h; cases h
  | succ f ih =>
    intro st st1 t h
    unfold scanStringLit at h
    dsimp only at h
    repeat' split at h
    all_goals
      first
      | (cases h; left; exact make_token_type (by assumption))
      | (cases h; right; rfl)
      | exact ih h
      | cases h

theorem checkKeyword_type {st st1 : Scanner} {off : Nat} {rest : List Nat}
    {tt tt1 : TokenType} (h : checkKeyword st off rest tt = some (st1, tt1)) :
    tt1 = tt ∨ tt1 = .TOKEN_IDENTIFIER := by
  unfold checkKeyword at h
  dsimp only at h
  repeat' split at h
  all_goals
    first
    | (cases h; left; rfl)
    | (cases h; right; rfl)
    | cases h

theorem identifierType_type {st st1 : Scanner} {tt : TokenType}
    (h : identifierType st = some (st1, tt)) :
    tt ≠ .TOKEN_EOF ∧ tt ≠ .TOKEN_NUMBER ∧ tt ≠ .TOKEN_STRING := by
  unfold identifierType at h
  repeat'
    first
    | split at h
    | (dsimp only at h; split at h)
  all_goals
    first
    | (rcases checkKeyword_type h with h1 | h1 <;> subst h1 <;> decide)
    | (cases h; decide)
    | cases h

theorem scanIdentifier_type {st st1 : Scanner} {t : Token}
    (h : scanIdentifier st = .tok st1 t) :
    t.token_type ≠ .TOKEN_EOF ∧ t.token_type ≠ .TOKEN_NUMBER ∧
    t.token_type ≠ .TOKEN_STRING := by
  unfold scanIdentifier at h
  split at h
  · cases h
  · split at h
    · cases h
      rw [make_token_type (by assumption)]
      exact identifierType_type (by assumption)
    · cases h

end RLox

namespace RLox

theorem scanPunct_type {f : Nat} {st3 st1 : Scanner} {c : Nat} {t : Token}
    (h : scanPunct f st3 c = .tok st1 t) :
    t.token_type ≠ .TOKEN_EOF ∧ t.token_type ≠ .TOKEN_NUMBER := by
  unfold scanPunct at h
  repeat'
    first
    | split at h
    | (dsimp only at h; split at h)
  all_goals try (cases h; rw [make_token_type (by assumption)]; decide)
  all_goals
    try (cases h; rename_i hmk; split at hmk <;> (rw [make_token_type hmk]; decide))
  all_goals try (cases h; simp [Scanner.error_token])
  all_goals try cases h
  all_goals
    rcases scanStringLit_type _ h with h1 | h1 <;> rw [h1] <;> decide

theorem scanTokenAfterWs_eof {f : Nat} {stw st1 : Scanner} {t : Token}
    (h : scanTokenAfterWs f stw = .tok st1 t) (ht : t.token_type = .TOKEN_EOF) :
    stw.is_finished = false ∧ st1.is_finished = true ∧
    st1.current = st1.source.length := by
  unfold scanTokenAfterWs at h
  repeat'
    first
    | split at h
    | (dsimp only at h; split at h)
  all_goals try (cases h; refine ⟨by simp_all, rfl, by simp_all⟩)
  all_goals try cases h
  all_goals
    first
    | (exact absurd ht (by rw [scanNumber_type h]; decide))
    | (exact absurd ht (scanIdentifier_type h).1)
    | (exact absurd ht (scanPunct_type h).1)

end RLox

namespace RLox

/-- C8 (counterexample): on the source `a` the very first `scan_token` call
panics inside `check_keyword` (its slice `source[1..3]` is out of bounds), so
across all calls the scanner produces zero end-of-input tokens, not exactly
one. -/
theorem c8_scan_never_reaches_eof :
    scanCalls 5 32 (Scanner.new (bytesOf "a")) = [ScanOut.crashed] := by decide

/-- C8 (amended): (i) a `scan_token` call that returns an EOF token started
with the finished flag clear and returns a state with the flag set and the
cursor at the end of the buffer; (ii) once the flag is set, no call ever
returns a token again; (iii) a call on an unfinished scanner whose cursor is
at the end of the buffer does return the EOF token and sets the flag. -/
theorem c8_eof_flag_behaviour :
    (∀ (f : Nat) (st0 st1 : Scanner) (t : Token),
        scan_token f st0 = .tok st1 t → t.token_type = .TOKEN_EOF →
        st0.is_finished = false ∧ st1.is_finished = true ∧
        st1.current = st1.source.length) ∧
    (∀ (f : Nat) (st0 st1 : Scanner) (t : Token),
        st0.is_finished = true → scan_token f st0 ≠ .tok st1 t) ∧
    (∀ (f : Nat) (st0 : Scanner),
        st0.is_finished = false → st0.current = st0.source.length →
        scan_token (f + 1) st0 =
          .tok { st0 with start := st0.current, is_finished := true }
               ⟨.TOKEN_EOF, [], st0.current, st0.line⟩) := by
  refine ⟨?_, ?_, ?_⟩
  · intro f st0 st1 t h ht
    unfold scan_token at h
    dsimp only at h
    split at h
    · cases h
    · rename_i stw hsw
      have hfin := skip_whitespace_finished _ _ _ hsw
      simp only [] at hfin
      have hh := scanTokenAfterWs_eof h ht
      exact ⟨by rw [← hfin]; exact hh.1, hh.2⟩
  · intro f st0 st1 t h0 h
    unfold scan_token at h
    dsimp only at h
    split at h
    · cases h
    · rename_i stw hsw
      have hfin := skip_whitespace_finished _ _ _ hsw
      simp only [] at hfin
      unfold scanTokenAfterWs at h
      rw [hfin, h0] at h
      simp at h
  · intro f st0 h0 hc
    have hb : byteAt st0.source st0.current = none := by
      simp [byteAt, hc, List.get?_eq_none]
    unfold scan_token
    dsimp only
    unfold skip_whitespace
    simp only [hb]
    unfold scanTokenAfterWs
    simp [h0, hc, Scanner.make_token, sliceBytes] <;> rfl

theorem c8_eof_flag_behaviour_witness :
    (Scanner.new []).is_finished = false ∧
    (⟨[], 0, 0, 1, true⟩ : Scanner).is_finished = true ∧
    (⟨[], 0, 0, 1, true⟩ : Scanner).current =
      (⟨[], 0, 0, 1, true⟩ : Scanner).source.length :=
  c8_eof_flag_behaviour.1 2 (Scanner.new []) ⟨[], 0, 0, 1, true⟩
    ⟨.TOKEN_EOF, [], 0, 1⟩ (by decide) (by decide)

end RLox

namespace RLox

theorem takeWhile_all_eq {p : Nat → Bool} : ∀ {l : List Nat},
    (∀ x ∈ l, p x = true) → l.takeWhile p = l := by
  intro l
  induction l with
  | nil => intro _; rfl
  | cons a r ih =>
    intro h
    rw [List.takeWhile_cons, if_pos (h a (List.mem_cons_self a r))]
    rw [ih (fun x hx => h x (List.mem_cons_of_mem a hx))]

theorem takeWhile_append_stop {p : Nat → Bool} {c : Nat} {b : List Nat}
    (hc : p c = false) : ∀ {a : List Nat},
    (∀ x ∈ a, p x = true) → (a ++ c :: b).takeWhile p = a := by
  intro a
  induction a with
  | nil => intro _; simp [List.takeWhile_cons, hc]
  | cons a0 r ih =>
    intro h
    rw [List.cons_append, List.takeWhile_cons,
        if_pos (h a0 (List.mem_cons_self a0 r))]
    rw [ih (fun x hx => h x (List.mem_cons_of_mem a0 hx))]

theorem stripSign_of_digit {b : Nat} {r : List Nat} (h : isDigitByte b = true) :
    stripSign (b :: r) = b :: r := by
  simp [isDigitByte] at h
  rw [stripSign]
  rw [if_neg]
  simp
  omega

theorem rustF32Accept_digits {l : List Nat} (hne : l ≠ [])
    (hall : ∀ x ∈ l, isDigitByte x = true) : rustF32Accept l = true := by
  cases l with
  | nil => exact absurd rfl hne
  | cons b r =>
    have hb : isDigitByte b = true := hall b (List.mem_cons_self b r)
    unfold rustF32Accept
    rw [stripSign_of_digit hb]
    dsimp only
    rw [takeWhile_all_eq hall, List.drop_length]
    simp

theorem rustF32Accept_decimal {a b : List Nat} (ha : a ≠ [])
    (hala : ∀ x ∈ a, isDigitByte x = true) (hb : b ≠ [])
    (halb : ∀ x ∈ b, isDigitByte x = true) :
    rustF32Accept (a ++ 46 :: b) = true := by
  cases a with
  | nil => exact absurd rfl ha
  | cons a0 ar =>
    have ha0 : isDigitByte a0 = true := hala a0 (List.mem_cons_self a0 ar)
    unfold rustF32Accept
    rw [List.cons_append, stripSign_of_digit ha0, ← List.cons_append]
    dsimp only
    rw [takeWhile_append_stop (by decide) hala, List.drop_left]
    dsimp only
    rw [takeWhile_all_eq halb, List.drop_length]
    simp [expAccept]

theorem fromStrQ_digits {l : List Nat} (hne : l ≠ [])
    (hall : ∀ x ∈ l, isDigitByte x = true) : fromStrQ l ≠ none := by
  unfold fromStrQ
  dsimp only
  rw [takeWhile_all_eq hall, List.drop_length, if_neg hne]
  simp

theorem fromStrQ_decimal {a b : List Nat} (ha : a ≠ [])
    (hala : ∀ x ∈ a, isDigitByte x = true) (hb : b ≠ [])
    (halb : ∀ x ∈ b, isDigitByte x = true) :
    fromStrQ (a ++ 46 :: b) ≠ none := by
  unfold fromStrQ
  dsimp only
  rw [takeWhile_append_stop (by decide) hala, List.drop_left, if_neg ha]
  have hfp : b.all isDigitByte = true := List.all_eq_true.mpr halb
  simp [hb, hfp]

end RLox

namespace RLox

theorem sliceBytes_split {src : List Nat} {a m b : Nat} (h1 : a ≤ m) (h2 : m ≤ b) :
    sliceBytes src a b = sliceBytes src a m ++ sliceBytes src m b := by
  unfold sliceBytes
  have hb : b - a = (m - a) + (b - m) := by omega
  rw [hb, List.take_add]
  congr 1
  rw [List.drop_drop, Nat.add_sub_cancel' h1]

theorem sliceBytes_singleton {src : List Nat} {m c : Nat}
    (h : byteAt src m = some c) : sliceBytes src m (m + 1) = [c] := by
  unfold byteAt at h
  have hm : m < src.length := by
    by_contra hcon
    rw [List.get?_eq_none.mpr (by omega)] at h
    cases h
  have hg : src[m] = c := by
    have := List.get?_eq_getElem? src m
    rw [this, List.getElem?_eq_getElem hm] at h
    exact Option.some.inj h
  unfold sliceBytes
  rw [List.drop_eq_getElem_cons hm, Nat.add_sub_cancel_left]
  rw [List.take_succ_cons, List.take_zero, hg]

theorem sliceBytes_ne_nil {src : List Nat} {a b : Nat} (h1 : a < b)
    (h2 : a < src.length) : sliceBytes src a b ≠ [] := by
  unfold sliceBytes
  intro hcon
  have := congrArg List.length hcon
  rw [List.length_take, List.length_drop] at this
  simp at this
  omega

theorem sliceBytes_mem_digit {src : List Nat} {a b : Nat}
    (h : ∀ i, a ≤ i → i < b → ∀ c, byteAt src i = some c → isDigitByte c = true) :
    ∀ x ∈ sliceBytes src a b, isDigitByte x = true := by
  intro x hx
  unfold sliceBytes at hx
  obtain ⟨i, hi, hgx⟩ := List.mem_iff_getElem.mp hx
  have hi2 := hi
  rw [List.length_take, List.length_drop] at hi2
  have hib : i < b - a := lt_of_lt_of_le hi2 (min_le_left _ _)
  have hilen : i < src.length - a := lt_of_lt_of_le hi2 (min_le_right _ _)
  rw [List.getElem_take, List.getElem_drop] at hgx
  apply h (a + i) (Nat.le_add_right _ _) (by omega) x
  unfold byteAt
  rw [List.get?_eq_getElem?, List.getElem?_eq_getElem (by omega)]
  rw [hgx]

end RLox

namespace RLox

theorem numDigitLoop_spec : ∀ (f : Nat) (st st1 : Scanner),
    numDigitLoop f st = some st1 →
    st1.source = st.source ∧ st1.start = st.start ∧ st1.line = st.line ∧
    st1.is_finished = st.is_finished ∧ st.current ≤ st1.current ∧
    (∀ i, st.current ≤ i → i < st1.current →
        ∀ c, byteAt st.source i = some c → isDigitByte c = true) ∧
    (∀ c, byteAt st.source st1.current = some c → isDigitByte c = false) := by
  intro f
  induction f with
  | zero => intro st st1 h; cases h
  | succ f ih =>
    intro st st1 h
    unfold numDigitLoop at h
    split at h
    · rename_i c heq
      split at h
      · rename_i hdig
        have hr := ih _ _ h
        obtain ⟨h1, h2, h3, h4, h5, h6, h7⟩ := hr
        simp only [] at h1 h2 h3 h4 h5 h6 h7
        refine ⟨h1, h2, h3, h4, by omega, ?_, h7⟩
        intro i hi1 hi2 c' hc'
        rcases Nat.eq_or_lt_of_le hi1 with he | hlt
        · rw [← he] at hc'
          rw [heq] at hc'
          cases hc'
          exact hdig
        · exact h6 i hlt hi2 c' hc'
      · rename_i hdig
        cases h
        refine ⟨rfl, rfl, rfl, rfl, Nat.le_refl _, ?_, ?_⟩
        · intro i hi1 hi2
          omega
        · intro c' hc'
          rw [heq] at hc'
          cases hc'
          simpa using hdig
    · rename_i heq
      cases h
      refine ⟨rfl, rfl, rfl, rfl, Nat.le_refl _, ?_, ?_⟩
      · intro i hi1 hi2
        omega
      · intro c' hc'
        rw [heq] at hc'
        cases hc'

end RLox

namespace RLox

theorem byteAt_some_lt {src : List Nat} {i c : Nat} (h : byteAt src i = some c) :
    i < src.length := by
  unfold byteAt at h
  by_contra hcon
  rw [List.get?_eq_none.mpr (by omega)] at h
  cases h

theorem mkNum_digits {stX : Scanner} {t : Token}
    (hmk : stX.make_token .TOKEN_NUMBER = some t)
    (hall : ∀ i, stX.start ≤ i → i < stX.current →
        ∀ c, byteAt stX.source i = some c → isDigitByte c = true)
    (hlt : stX.start < stX.current) (hlen : stX.start < stX.source.length) :
    rustF32Accept t.message = true ∧ fromStrQ t.message ≠ none := by
  unfold Scanner.make_token at hmk
  split at hmk
  · cases hmk
    have hne := sliceBytes_ne_nil hlt hlen
    have hall2 := sliceBytes_mem_digit hall
    exact ⟨rustF32Accept_digits hne hall2, fromStrQ_digits hne hall2⟩
  · cases hmk

theorem mkNum_decimal {stX : Scanner} {t : Token} {m : Nat}
    (hmk : stX.make_token .TOKEN_NUMBER = some t)
    (hdot : byteAt stX.source m = some 46)
    (hA : ∀ i, stX.start ≤ i → i < m →
        ∀ c, byteAt stX.source i = some c → isDigitByte c = true)
    (hltA : stX.start < m) (hlenA : stX.start < stX.source.length)
    (hB : ∀ i, m + 1 ≤ i → i < stX.current →
        ∀ c, byteAt stX.source i = some c → isDigitByte c = true)
    (hltB : m + 1 < stX.current) (hlenB : m + 1 < stX.source.length) :
    rustF32Accept t.message = true ∧ fromStrQ t.message ≠ none := by
  unfold Scanner.make_token at hmk
  split at hmk
  · cases hmk
    have hsplit1 : sliceBytes stX.source stX.start stX.current =
        sliceBytes stX.source stX.start m ++ sliceBytes stX.source m stX.current :=
      sliceBytes_split (by omega) (by omega)
    have hsplit2 : sliceBytes stX.source m stX.current =
        sliceBytes stX.source m (m + 1) ++ sliceBytes stX.source (m + 1) stX.current :=
      sliceBytes_split (by omega) (by omega)
    have hone : sliceBytes stX.source m (m + 1) = [46] := sliceBytes_singleton hdot
    have hmsg : sliceBytes stX.source stX.start stX.current =
        sliceBytes stX.source stX.start m ++
          46 :: sliceBytes stX.source (m + 1) stX.current := by
      rw [hsplit1, hsplit2, hone]
      rfl
    have hneA := sliceBytes_ne_nil hltA hlenA
    have hneB := sliceBytes_ne_nil hltB hlenB
    have hallA := sliceBytes_mem_digit hA
    have hallB := sliceBytes_mem_digit hB
    constructor
    · show rustF32Accept (sliceBytes stX.source stX.start stX.current) = true
      rw [hmsg]
      exact rustF32Accept_decimal hneA hallA hneB hallB
    · show fromStrQ (sliceBytes stX.source stX.start stX.current) ≠ none
      rw [hmsg]
      exact fromStrQ_decimal hneA hallA hneB hallB
  · cases hmk

end RLox

namespace RLox

theorem scanNumber_accept {f : Nat} {st st1 : Scanner} {t : Token} {c0 : Nat}
    (hs : st.start = st.current)
    (hd : byteAt st.source st.current = some c0)
    (hdig : isDigitByte c0 = true)
    (h : scanNumber f st = .tok st1 t) :
    rustF32Accept t.message = true ∧ fromStrQ t.message ≠ none := by
  unfold scanNumber at h
  split at h
  · cases h
  · rename_i stA heqA
    obtain ⟨a1, a2, a3, a4, a5, a6, a7⟩ := numDigitLoop_spec _ _ _ heqA
    have hltA : st.current < stA.current := by
      rcases Nat.eq_or_lt_of_le a5 with he | hlt
      · exfalso
        rw [← he] at a7
        have := a7 c0 hd
        rw [hdig] at this
        cases this
      · exact hlt
    dsimp only at h
    split at h
    · cases h
    · rename_i x3 st3 hin
      split at h
      · rename_i t0 heq2
        cases h
        split at hin
        · rename_i c1 c2 heqb1 heqb2
          split at hin
          · rename_i hcond
            simp only [Bool.and_eq_true, decide_eq_true_eq] at hcond
            obtain ⟨hc1, hc2⟩ := hcond
            obtain ⟨b1, b2, b3, b4, b5, b6, b7⟩ := numDigitLoop_spec _ _ _ hin
            simp only [] at b1 b2 b3 b4 b5 b6 b7
            have hltB : stA.current + 1 < st1.current := by
              rcases Nat.eq_or_lt_of_le b5 with he | hlt
              · exfalso
                rw [← he] at b7
                have := b7 c2 heqb2
                rw [hc2] at this
                cases this
              · exact hlt
            apply mkNum_decimal heq2 (m := stA.current)
            · rw [b1, ← hc1]
              exact heqb1
            · intro i hi1 hi2 c hc
              rw [b1, a1] at hc
              apply a6 i ?_ hi2 c hc
              rw [b2, a2, hs] at hi1
              exact hi1
            · rw [b2, a2, hs]
              exact hltA
            · rw [b2, a2, hs, b1, a1]
              exact byteAt_some_lt hd
            · intro i hi1 hi2 c hc
              rw [b1] at hc
              exact b6 i hi1 hi2 c hc
            · exact hltB
            · rw [b1]
              exact byteAt_some_lt heqb2
          · cases hin
            apply mkNum_digits heq2
            · intro i hi1 hi2 c hc
              rw [a1] at hc
              apply a6 i ?_ hi2 c hc
              rw [a2, hs] at hi1
              exact hi1
            · rw [a2, hs]
              exact hltA
            · rw [a2, hs, a1]
              exact byteAt_some_lt hd
        · cases hin
          apply mkNum_digits heq2
          · intro i hi1 hi2 c hc
            rw [a1] at hc
            apply a6 i ?_ hi2 c hc
            rw [a2, hs] at hi1
            exact hi1
          · rw [a2, hs]
            exact hltA
          · rw [a2, hs, a1]
            exact byteAt_some_lt hd
      · cases h

end RLox

namespace RLox

/-- C10: every `TOKEN_NUMBER` token the scanner produces carries a lexeme
accepted by `f32::from_str` (and by the numeric parser the compiler's number
handler uses), so `Compiler::number`'s panic branch is unreachable on
scanner-produced tokens. -/
theorem c10_number_lexemes_parse_as_f32 :
    ∀ (f : Nat) (st0 st1 : Scanner) (t : Token),
      scan_token f st0 = .tok st1 t → t.token_type = .TOKEN_NUMBER →
      rustF32Accept t.message = true ∧ fromStrQ t.message ≠ none := by
  intro f st0 st1 t h ht
  unfold scan_token at h
  dsimp only at h
  split at h
  · cases h
  · rename_i stw hsw
    unfold scanTokenAfterWs at h
    repeat'
      first
      | split at h
      | (dsimp only at h; split at h)
    all_goals try (cases h; exact absurd ht (by rw [make_token_type (by assumption)]; decide))
    all_goals try cases h
    all_goals try (exact absurd ht (scanIdentifier_type h).2.1)
    all_goals try (exact absurd ht (scanPunct_type h).2)
    rename_i c heqc hdigc
    dsimp only at h
    refine @scanNumber_accept f _ st1 t c ?_ ?_ ?_ h
    · rfl
    · exact heqc
    · exact hdigc

end RLox

namespace RLox

theorem c10_number_lexemes_parse_as_f32_witness :
    rustF32Accept (bytesOf "12.5") = true ∧ fromStrQ (bytesOf "12.5") ≠ none :=
  c10_number_lexemes_parse_as_f32 8 (Scanner.new (bytesOf "12.5"))
    ⟨bytesOf "12.5", 0, 4, 1, false⟩ ⟨.TOKEN_NUMBER, bytesOf "12.5", 0, 1⟩
    (by decide) (by decide)

end RLox
